import Mathlib

/-!
# Tropiq store backend: a shallow embedding of `src/server.js`

The relational store behind the query builder is a record of four tables, each
a list of rows in storage order.  A handler is a function from the store before
the request to the store after it together with the response body.  The store
itself never faults in this model (the handlers' `catch` branches are the
store-error paths and are not taken).

* `uuidv4()` is an input: every handler receives the identifiers it draws.
* `new Date()` is an input: every handler receives the clock reading `now`.
* Monetary amounts, quantities and stock levels are integers; `Number(x)` is the
  identity on them.  Stock is changed by the store (`increment`, `decrement`),
  in exact integer arithmetic.  The statistics pass adds in JavaScript: `jsAdd`
  rounds a sum to the nearest double, as `+=` does on finite numbers.
* A text is a `String`; a text cut by `slice` is kept as its UTF-16 code units,
  since the cut may fall inside a surrogate pair.
* A query without `orderBy` answers the matching rows in storage order, and
  `.first()` the first of them.
* `String.prototype.toUpperCase` is fixed on ASCII and takes the case mapping of
  the remaining code points as the parameter `u`.
-/

namespace TropiqStore

/-! ## Tables -/

/-- A JavaScript string as its sequence of UTF-16 code units. -/
abbrev JSString := List Nat

/-- Row of `products`. -/
structure Product where
  id : String
  name : String
  description : String
  price : Int
  image : String
  category : String
  stock : Int
deriving DecidableEq, Repr

/-- Row of `customers`. -/
structure Customer where
  id : String
  full_name : String
  email : Option String
  phone : String
  address : String
  city : String
  postal_code : String
deriving DecidableEq, Repr

/-- Row of `orders`. -/
structure Order where
  id : String
  customer_id : String
  total : Int
  status : String
  payment_card_name : Option String
  payment_card_number_masked : Option JSString
  created_at : Nat
  updated_at : Nat
deriving DecidableEq, Repr

/-- Row of `order_items`. -/
structure OrderItem where
  id : String
  order_id : String
  product_id : String
  quantity : Int
  price : Int
  created_at : Nat
deriving DecidableEq, Repr

/-- The relational store: `db('products')`, `db('customers')`, `db('orders')`,
`db('order_items')`. -/
structure Store where
  products : List Product
  customers : List Customer
  orders : List Order
  order_items : List OrderItem
deriving DecidableEq, Repr

/-! ## Request and response bodies -/

/-- Body of `POST /api/products`. -/
structure ProductBody where
  name : String
  description : Option String
  price : Int
  image : Option String
  category : Option String
  stock : Option Int
deriving DecidableEq, Repr

/-- The `customer` object of `POST /api/orders`. -/
structure CustomerInput where
  name : String
  email : Option String
  phone : String
  address : String
  city : String
  zipCode : String
deriving DecidableEq, Repr

/-- The `product` object of one submitted item. -/
structure ProductRef where
  id : String
  name : String
  price : Int
deriving DecidableEq, Repr

/-- One element of `items` of `POST /api/orders`. -/
structure ItemInput where
  product : ProductRef
  quantity : Int
deriving DecidableEq, Repr

/-- The optional `paymentInfo` object of `POST /api/orders`. -/
structure PaymentInfo where
  cardName : Option String
  cardNumber : Option String
deriving DecidableEq, Repr

/-- Body of `POST /api/orders`. -/
structure OrderRequest where
  customer : CustomerInput
  items : List ItemInput
  total : Int
  paymentInfo : Option PaymentInfo
deriving DecidableEq, Repr

/-- The `customer` object of the placement response. -/
structure CustomerEcho where
  id : String
  name : String
  email : Option String
deriving DecidableEq, Repr

/-- The `payment_info` object of the placement response. -/
structure PaymentEcho where
  card_name : Option String
  card_number_masked : Option JSString
deriving DecidableEq, Repr

/-- The `formattedOrder` object answered by `POST /api/orders`. -/
structure FormattedOrder where
  id : String
  status : String
  total : Int
  customer : CustomerEcho
  items : List ItemInput
  payment_info : PaymentEcho
  created_at : Nat
deriving DecidableEq, Repr

/-! ## JavaScript operators used by the handlers -/

/-- The expression `x || d` for an optional string `x`: `undefined` and `''` are
falsy. -/
def orString (x : Option String) (d : String) : String :=
  match x with
  | some v => if v = "" then d else v
  | none => d

/-- The expression `x || d` for an optional number `x`: `undefined` and `0` are
falsy. -/
def orInt (x : Option Int) (d : Int) : Int :=
  match x with
  | some v => if v = 0 then d else v
  | none => d

/-- Truthiness of an optional string. -/
def truthy (x : Option String) : Bool :=
  match x with
  | some v => v != ""
  | none => false

/-- The UTF-16 code units of one code point: itself in the Basic Multilingual
Plane, a high and a low surrogate above it. -/
def utf16Char (c : Char) : List Nat :=
  if c.toNat < 65536 then [c.toNat]
  else [55296 + (c.toNat - 65536) / 1024, 56320 + (c.toNat - 65536) % 1024]

/-- The UTF-16 code units of a text, which are what `length`, `slice` and string
concatenation work on. -/
def utf16 (s : String) : JSString :=
  s.data.flatMap utf16Char

/-- The call `c.slice(-n)`: the last `n` code units of `c`, all of `c` when it is
shorter. -/
def sliceLast (n : Nat) (c : JSString) : JSString :=
  c.drop (c.length - n)

/-- `Number(x)` on a numeric column. -/
def Number (x : Int) : Int := x

/-- Number of binary digits of `m`, by halving; `fuel` bounds the halvings. -/
def bitLengthAux : Nat → Nat → Nat
  | 0, _ => 0
  | fuel + 1, m => if m = 0 then 0 else bitLengthAux fuel (m / 2) + 1

/-- Number of binary digits of `m`. -/
def bitLength (m : Nat) : Nat := bitLengthAux m m

/-- The double nearest to the natural number `m`: `m` itself up to `2^53`, and
above it `m` rounded to 53 significant binary digits, ties to the even one. -/
def roundNat (m : Nat) : Nat :=
  if m ≤ 2 ^ 53 then m
  else
    let shift := bitLength m - 53
    let q := m / 2 ^ shift
    let rem := m % 2 ^ shift
    let half := 2 ^ (shift - 1)
    let q1 := if half < rem ∨ (rem = half ∧ q % 2 = 1) then q + 1 else q
    q1 * 2 ^ shift

/-- The double nearest to the integer `n`.  Doubles are finite up to about
`1.8 * 10^308`; a sum beyond that is `Infinity` in the source and has no value
here. -/
def toDouble (n : Int) : Int :=
  if 0 ≤ n then (roundNat n.toNat : Int) else - (roundNat n.natAbs : Int)

/-- The JavaScript sum `a + b` of two integer-valued numbers: the exact sum
rounded to the nearest double. -/
def jsAdd (a b : Int) : Int :=
  toDouble (a + b)

/-! ## `POST /api/products` -/

/-- The row inserted by `POST /api/products` (lines 35-43). -/
def newProductRow (id : String) (body : ProductBody) : Product :=
  { id := id
    name := body.name
    description := orString body.description ""
    price := body.price
    image := orString body.image ""
    category := orString body.category ""
    stock := orInt body.stock 0 }

/-- `app.post('/api/products')`: insert the row, read it back by id. -/
def createProduct (uuid : String) (s : Store) (body : ProductBody) :
    Store × Option Product :=
  let id := uuid
  let s1 := { s with products := s.products ++ [newProductRow id body] }
  (s1, (s1.products.filter (fun p => p.id = id)).head?)

/-! ## `POST /api/orders` -/

/-- The expression
`paymentInfo?.cardNumber ? "****-****-****-" + paymentInfo.cardNumber.slice(-4) : null`
(lines 181-182 and 241-242). -/
def maskCard (paymentInfo : Option PaymentInfo) : Option JSString :=
  match paymentInfo with
  | none => none
  | some pi =>
    match pi.cardNumber with
    | none => none
    | some c =>
      if c = "" then none else some (utf16 "****-****-****-" ++ sliceLast 4 (utf16 c))

/-- The expression `paymentInfo?.cardName`. -/
def cardName (paymentInfo : Option PaymentInfo) : Option String :=
  match paymentInfo with
  | none => none
  | some pi => pi.cardName

/-- The customer row inserted when the lookup by email finds nothing
(lines 158-166). -/
def newCustomerRow (customerId : String) (customer : CustomerInput) : Customer :=
  { id := customerId
    full_name := customer.name
    email := customer.email
    phone := customer.phone
    address := customer.address
    city := customer.city
    postal_code := customer.zipCode }

/-- Lines 147-171: look the customer up by email when one is given, insert a new
row otherwise; answers the customers table afterwards, `customerData`, and the
number of identifiers drawn. -/
def findOrCreateCustomer (gen : Nat → String) (customers : List Customer)
    (customer : CustomerInput) : List Customer × Customer × Nat :=
  let found : Option Customer :=
    if truthy customer.email then
      customers.find? (fun c => c.email = customer.email)
    else none
  match found with
  | some c => (customers, c, 0)
  | none =>
    let customerId := gen 0
    let inserted := customers ++ [newCustomerRow customerId customer]
    match inserted.find? (fun c => c.id = customerId) with
    | some c => (inserted, c, 1)
    | none => (inserted, newCustomerRow customerId customer, 1)

/-- The statement `db('products').where('id', id).decrement('stock', q)`. -/
def decrementStock (products : List Product) (id : String) (q : Int) : List Product :=
  products.map (fun p => if p.id = id then { p with stock := p.stock - q } else p)

/-- The statement `db('products').where('id', id).increment('stock', q)`. -/
def incrementStock (products : List Product) (id : String) (q : Int) : List Product :=
  products.map (fun p => if p.id = id then { p with stock := p.stock + q } else p)

/-- Lines 188-195: one `order_items` row per submitted item, the `k`-th one
taking the identifier `gen (base + k)`. -/
def makeOrderItems (gen : Nat → String) (base : Nat) (now : Nat) (orderId : String) :
    List ItemInput → List OrderItem
  | [] => []
  | item :: rest =>
    { id := gen base
      order_id := orderId
      product_id := item.product.id
      quantity := item.quantity
      price := item.product.price
      created_at := now } :: makeOrderItems gen (base + 1) now orderId rest

/-- `app.post('/api/orders')`.  The joined read of lines 207-219 writes nothing
and its result `fullOrder` is not used, so it has no counterpart here. -/
def placeOrder (gen : Nat → String) (now : Nat) (s : Store) (req : OrderRequest) :
    Store × FormattedOrder :=
  let (customers, customerData, drawn) := findOrCreateCustomer gen s.customers req.customer
  let orderId := gen drawn
  let order : Order :=
    { id := orderId
      customer_id := customerData.id
      total := req.total
      status := "PENDING"
      payment_card_name := cardName req.paymentInfo
      payment_card_number_masked := maskCard req.paymentInfo
      created_at := now
      updated_at := now }
  let orderItems := makeOrderItems gen (drawn + 1) now orderId req.items
  let products := req.items.foldl
    (fun ps item => decrementStock ps item.product.id item.quantity) s.products
  let formattedOrder : FormattedOrder :=
    { id := orderId
      status := "PENDING"
      total := req.total
      customer :=
        { id := customerData.id, name := customerData.full_name, email := customerData.email }
      items := req.items.map
        (fun item =>
          { product :=
              { id := item.product.id, name := item.product.name, price := item.product.price }
            quantity := item.quantity })
      payment_info :=
        { card_name := cardName req.paymentInfo
          card_number_masked := maskCard req.paymentInfo }
      created_at := now }
  ({ products := products
     customers := customers
     orders := s.orders ++ [order]
     order_items := s.order_items ++ orderItems }, formattedOrder)

/-! ## `PUT /api/orders/:id/status` -/

/-- One code point of `toUpperCase`: the ASCII rule, and `u` elsewhere. -/
def upperChar (u : Char → List Char) (c : Char) : List Char :=
  if c.toNat < 128 then [c.toUpper] else u c

/-- The call `status.toUpperCase()`: the mapping is applied code point by code
point and the results are concatenated. -/
def toUpperCase (u : Char → List Char) (s : String) : String :=
  String.mk (s.data.flatMap (upperChar u))

/-- Names of the members every object literal inherits from `Object.prototype`. -/
def objectPrototypeKeys : List String :=
  ["constructor", "__defineGetter__", "__defineSetter__", "hasOwnProperty",
   "__lookupGetter__", "__lookupSetter__", "isPrototypeOf", "propertyIsEnumerable",
   "toString", "valueOf", "__proto__", "toLocaleString"]

/-- What the read `obj[key]` finds on an object literal whose own properties are
the pairs of a list in creation order. -/
inductive PropRead (α : Type) where
  | own (v : α)
  | inherited (member : String)
  | undefined
deriving DecidableEq, Repr

/-- The read `obj[key]`: own properties first, then `Object.prototype`. -/
def getProp {α : Type} (obj : List (String × α)) (key : String) : PropRead α :=
  match obj.find? (fun kv => kv.1 = key) with
  | some kv => .own kv.2
  | none => if key ∈ objectPrototypeKeys then .inherited key else .undefined

/-- The object literal `statusMap` (lines 266-272). -/
def statusMap : List (String × String) :=
  [("PENDENTE", "PENDING"), ("PAGO", "PAID"), ("ENVIADO", "SHIPPED"),
   ("ENTREGUE", "DELIVERED"), ("CANCELADO", "CANCELLED")]

/-- Lines 263-275: `status = status.toUpperCase()` and then
`mappedStatus = statusMap[status] || status`.  The answer is `none` when the read
finds an inherited member, which is not a status text. -/
def mappedStatus (u : Char → List Char) (raw : String) : Option String :=
  let status := toUpperCase u raw
  match getProp statusMap status with
  | .own v => some (if v = "" then status else v)
  | .undefined => some status
  | .inherited _ => none

/-- Lines 279-284: fetch the order's items and increment each referenced
product's stock by the item's quantity, one statement per item. -/
def restock (s : Store) (id : String) : List Product :=
  (s.order_items.filter (fun item => item.order_id = id)).foldl
    (fun ps item => incrementStock ps item.product_id item.quantity) s.products

/-- Lines 287-292: the statement
`db('orders').where('id', id).update({ status, updated_at })`.  The value is
written as given: the handler checks it against no list of statuses, and the
type of the column is declared outside `src`. -/
def updateStatus (orders : List Order) (id : String) (mapped : String) (now : Nat) :
    List Order :=
  orders.map (fun o => if o.id = id then { o with status := mapped, updated_at := now } else o)

/-- `app.put('/api/orders/:id/status')`: the store afterwards and the order row
read back (`undefined` when no order has this id). -/
def setOrderStatus (u : Char → List Char) (now : Nat) (s : Store) (id : String)
    (raw : String) : Option (Store × Option Order) :=
  match mappedStatus u raw with
  | none => none
  | some mapped =>
    let products := if mapped = "CANCELLED" then restock s id else s.products
    let orders := updateStatus s.orders id mapped now
    some ({ s with products := products, orders := orders },
      (orders.filter (fun o => o.id = id)).head?)

/-! ## `GET /api/orders` -/

/-- A row of the first query of `GET /api/orders`: `orders.*` and the customer
columns under their aliases. -/
structure OrderWithCustomer extends Order where
  customer_name : String
  customer_email : Option String
  customer_phone : String
  customer_address : String
  customer_city : String
  customer_postal_code : String
deriving DecidableEq, Repr

/-- A row of the per-order items query: `order_items.*` and the product columns
under their aliases. -/
structure ItemWithProduct extends OrderItem where
  product_name : String
  product_description : String
  product_image : String
  product_category : String
  product_stock : Int
deriving DecidableEq, Repr

/-- The `product` object of a listed item. -/
structure ListedProduct where
  id : String
  name : String
  price : Int
  description : String
  image : String
  category : String
  stock : Int
deriving DecidableEq, Repr

/-- An element of a listed order's `items`. -/
structure ListedItem where
  product : ListedProduct
  quantity : Int
deriving DecidableEq, Repr

/-- An element of the array answered by `GET /api/orders`: `{...order, items}`. -/
structure ListedOrder extends OrderWithCustomer where
  items : List ListedItem
deriving DecidableEq, Repr

/-- Lines 92-103: `orders` joined with `customers` on `customer_id`, newest
first. -/
def ordersWithCustomers (s : Store) : List OrderWithCustomer :=
  (s.orders.flatMap (fun o =>
    (s.customers.filter (fun c => o.customer_id = c.id)).map (fun c =>
      ({ toOrder := o
         customer_name := c.full_name
         customer_email := c.email
         customer_phone := c.phone
         customer_address := c.address
         customer_city := c.city
         customer_postal_code := c.postal_code } : OrderWithCustomer)))).insertionSort
    (fun a b => a.created_at ≥ b.created_at)

/-- Lines 107-117: the items of one order joined with `products` on
`product_id`. -/
def itemsWithProducts (s : Store) (orderId : String) : List ItemWithProduct :=
  (s.order_items.flatMap (fun oi =>
    (s.products.filter (fun p => oi.product_id = p.id)).map (fun p =>
      ({ toOrderItem := oi
         product_name := p.name
         product_description := p.description
         product_image := p.image
         product_category := p.category
         product_stock := p.stock } : ItemWithProduct)))).filter
    (fun item => item.order_id = orderId)

/-- Lines 121-132: the listed shape of one joined item row. -/
def listedItem (item : ItemWithProduct) : ListedItem :=
  { product :=
      { id := item.product_id
        name := item.product_name
        price := Number item.price
        description := orString (some item.product_description) ""
        image := orString (some item.product_image) ""
        category := orString (some item.product_category) ""
        stock := item.product_stock }
    quantity := item.quantity }

/-- `app.get('/api/orders')`. -/
def listOrders (s : Store) : List ListedOrder :=
  (ordersWithCustomers s).map (fun order =>
    { toOrderWithCustomer := order
      items := (itemsWithProducts s order.id).map listedItem })

/-! ## `GET /api/stats` -/

/-- A row of the statistics query (lines 312-322). -/
structure StatsRow where
  product_id : String
  quantity : Int
  id : String
  name : String
  price : Int
  image : String
  description : String
deriving DecidableEq, Repr

/-- The `product` object kept per product id (lines 332-338). -/
structure ProductSnapshot where
  id : String
  name : String
  price : Int
  image : String
  description : String
deriving DecidableEq, Repr

/-- A value of `productQuantities`, and the shape of the initial value of the
`reduce`, whose `product` is `null`. -/
structure StatEntry where
  quantity : Int
  product : Option ProductSnapshot
deriving DecidableEq, Repr

/-- Body of `GET /api/stats`. -/
structure Stats where
  totalProducts : Nat
  mostOrderedProduct : Option ProductSnapshot
deriving DecidableEq, Repr

/-- Lines 312-322: `order_items` joined with `products` on `product_id`. -/
def orderItemsData (s : Store) : List StatsRow :=
  s.order_items.flatMap (fun oi =>
    (s.products.filter (fun p => oi.product_id = p.id)).map (fun p =>
      ({ product_id := oi.product_id
         quantity := oi.quantity
         id := p.id
         name := p.name
         price := p.price
         image := p.image
         description := p.description } : StatsRow)))

/-- Lines 332-338: the snapshot built from the first row seen for an id;
`item.price ? Number(item.price) : 0`. -/
def snapshot (item : StatsRow) : ProductSnapshot :=
  { id := item.id
    name := item.name
    price := if item.price = 0 then 0 else Number item.price
    image := item.image
    description := item.description }

/-- The statement `productQuantities[key].quantity += q` on an own property. -/
def addQuantity (acc : List (String × StatEntry)) (key : String) (q : Int) :
    List (String × StatEntry) :=
  acc.map
    (fun kv => if kv.1 = key then (kv.1, { kv.2 with quantity := jsAdd kv.2.quantity q }) else kv)

/-- The body of the `forEach` (lines 328-342).  A row with a falsy `product_id`
is skipped.  When the read finds an inherited member no own property is created
and the addition lands on that member. -/
def accumulate (acc : List (String × StatEntry)) (item : StatsRow) :
    List (String × StatEntry) :=
  if item.product_id = "" then acc
  else
    match getProp acc item.product_id with
    | .inherited _ => acc
    | .own _ => addQuantity acc item.product_id item.quantity
    | .undefined =>
      addQuantity (acc ++ [(item.product_id, { quantity := 0, product := some (snapshot item) })])
        item.product_id item.quantity

/-- Lines 325-343: `productQuantities` after the pass, own properties in creation
order. -/
def productQuantities (rows : List StatsRow) : List (String × StatEntry) :=
  rows.foldl accumulate []

/-- The array index a property key denotes, if any: a canonical decimal numeral
below `2^32 - 1`. -/
def arrayIndex? (key : String) : Option Nat :=
  match key.data with
  | [] => none
  | [c] => if c.isDigit then some (c.toNat - 48) else none
  | c :: cs =>
    if c = '0' then none
    else if (c :: cs).all Char.isDigit then
      let n := (c :: cs).foldl (fun a d => 10 * a + (d.toNat - 48)) 0
      if n < 4294967295 then some n else none
    else none

/-- `Object.values(obj)`: array-index keys in ascending numeric order, then the
other keys in creation order. -/
def objectValues {α : Type} (obj : List (String × α)) : List α :=
  (((obj.filterMap (fun kv => (arrayIndex? kv.1).map (fun n => (n, kv.2)))).insertionSort
      (fun a b => a.1 ≤ b.1)).map (fun nv => nv.2))
    ++ (obj.filter (fun kv => (arrayIndex? kv.1).isNone)).map (fun kv => kv.2)

/-- Lines 345-348: the `reduce` over the values, started at
`{ quantity: 0, product: null }`. -/
def mostOrderedProductResult (values : List StatEntry) : StatEntry :=
  values.foldl (fun prev current => if prev.quantity > current.quantity then prev else current)
    { quantity := 0, product := none }

/-- Lines 324-358 on the rows of the statistics query and the product count. -/
def computeStatsRows (count : Nat) (rows : List StatsRow) : Stats :=
  let result := mostOrderedProductResult (objectValues (productQuantities rows))
  { totalProducts := count
    mostOrderedProduct := if result.quantity > 0 then result.product else none }

/-- `app.get('/api/stats')`. -/
def computeStats (s : Store) : Stats :=
  computeStatsRows s.products.length (orderItemsData s)

/-! ## Quantities the properties speak of, and sample data -/

/-- Total quantity the submitted items ask of the product `id`. -/
def orderedQuantity (items : List ItemInput) (id : String) : Int :=
  ((items.filter (fun item => item.product.id = id)).map (fun item => item.quantity)).sum

/-- Total quantity of the stored items of order `orderId` that reference the
product `id`. -/
def restockedQuantity (orderItems : List OrderItem) (orderId : String) (id : String) : Int :=
  ((orderItems.filter (fun item => item.order_id = orderId ∧ item.product_id = id)).map
    (fun item => item.quantity)).sum

/-- The status the spec's table gives an upper-cased token: the five localized
tokens go to their canonical values, every other text is kept. -/
def canonicalStatus (upper : String) : String :=
  if upper = "PENDENTE" then "PENDING"
  else if upper = "PAGO" then "PAID"
  else if upper = "ENVIADO" then "SHIPPED"
  else if upper = "ENTREGUE" then "DELIVERED"
  else if upper = "CANCELADO" then "CANCELLED"
  else upper

/-- The text `s` is the word `w` with each letter in either case. -/
def IsCasingOf (s w : String) : Prop :=
  List.Forall₂ (fun c d => c = d ∨ c = d.toUpper) s.data w.data

/-- A case mapping for the code points above ASCII that leaves them alone. -/
def unchanged : Char → List Char := fun c => [c]

/-- A store with one product, one customer and one pending order of two units
whose item was priced at 10 when the product now costs 20. -/
def sampleStore : Store :=
  { products :=
      [{ id := "p1", name := "Mango", description := "ripe", price := 20, image := "m.png",
         category := "fruit", stock := 8 }]
    customers :=
      [{ id := "c1", full_name := "Ana", email := some "ana@example.com", phone := "1",
         address := "Rua 1", city := "Praia", postal_code := "7600" }]
    orders :=
      [{ id := "o1", customer_id := "c1", total := 20, status := "PENDING",
         payment_card_name := none, payment_card_number_masked := none,
         created_at := 5, updated_at := 5 }]
    order_items :=
      [{ id := "i1", order_id := "o1", product_id := "p1", quantity := 2, price := 10,
         created_at := 5 }] }

/-- An order request from a returning customer with two items, of three and two
units, that reference the same product `p1`. -/
def sampleRequest : OrderRequest :=
  { customer :=
      { name := "Ana Maria", email := some "ana@example.com", phone := "2", address := "Rua 2",
        city := "Mindelo", zipCode := "2110" }
    items :=
      [{ product := { id := "p1", name := "Mango", price := 20 }, quantity := 3 },
       { product := { id := "p1", name := "Mango", price := 20 }, quantity := 2 }]
    total := 100
    paymentInfo := some { cardName := some "ANA", cardNumber := some "4111111111111111" } }

/-- Identifiers drawn by a request: `x`, `xx`, `xxx`, ... -/
def sampleIds : Nat → String := fun n => String.mk (List.replicate (n + 1) 'x')

/-- Sum of the quantities of the rows that carry the product id `id`. -/
def accumulatedQuantity (rows : List StatsRow) (id : String) : Int :=
  ((rows.filter (fun r => r.product_id = id)).map (fun r => r.quantity)).sum

/-- Position, in the pass over the rows, of the first row that carries the
product id `id` (the number of rows when there is none). -/
def firstSeenAt (rows : List StatsRow) (id : String) : Nat :=
  rows.findIdx (fun r => r.product_id = id)

/-- What the accumulation pass has built once it has gone through `rows`: every
own property belongs to a counted id, holds that id's accumulated quantity and
the snapshot of its first row; every counted id has a property; properties are
in order of first appearance. -/
structure AccInv (rows : List StatsRow) (acc : List (String × StatEntry)) : Prop where
  entry : ∀ kv ∈ acc, kv.1 ≠ "" ∧ kv.1 ∉ objectPrototypeKeys
    ∧ kv.2.quantity = accumulatedQuantity rows kv.1
    ∧ ∃ r, rows.find? (fun x => x.product_id = kv.1) = some r ∧ kv.2.product = some (snapshot r)
  complete : ∀ r ∈ rows, r.product_id ≠ "" → r.product_id ∉ objectPrototypeKeys →
    ∃ kv ∈ acc, kv.1 = r.product_id
  order : acc.Pairwise (fun a b => firstSeenAt rows a.1 < firstSeenAt rows b.1)

/-- The shape of every identifier `uuidv4()` returns, and so of every
`products.id` the code writes: 36 characters with hyphens at positions 8, 13, 18
and 23. -/
def uuidShaped (id : String) : Bool :=
  id.data.length == 36 && id.data[8]? == some '-' && id.data[13]? == some '-'
    && id.data[18]? == some '-' && id.data[23]? == some '-'

/-- Identifier of the sample product `A`. -/
def idA : String := "aaaaaaaa-aaaa-4aaa-8aaa-aaaaaaaaaaaa"

/-- Identifier of the sample product `B`. -/
def idB : String := "bbbbbbbb-bbbb-4bbb-8bbb-bbbbbbbbbbbb"

/-- A statistics row of product `A` with quantity 3. -/
def rowA3 : StatsRow :=
  { product_id := idA, quantity := 3, id := idA, name := "A", price := 12, image := "a.png",
    description := "" }

/-- A statistics row of product `B` with quantity 5. -/
def rowB5 : StatsRow :=
  { product_id := idB, quantity := 5, id := idB, name := "B", price := 7, image := "b.png",
    description := "" }

/-- A statistics row of product `A` with quantity 1. -/
def rowA1 : StatsRow := { rowA3 with quantity := 1 }

/-- A statistics row of product `A` with quantity 5. -/
def rowA5 : StatsRow := { rowA3 with quantity := 5 }

/-- Statistics rows whose quantities add up to `2^53 + 1` for product `A` and to
`2^53` for product `B`. -/
def largeRows : List StatsRow :=
  [{ rowA3 with quantity := 9007199254740000 }, { rowA3 with quantity := 991 },
   { rowA3 with quantity := 2 }, { rowB5 with quantity := 9007199254740000 },
   { rowB5 with quantity := 992 }]

/-- A store with the products `A` and `B` whose statistics query answers
`largeRows`. -/
def largeStore : Store :=
  { products :=
      [{ id := idA, name := "A", description := "", price := 12, image := "a.png",
         category := "", stock := 0 },
       { id := idB, name := "B", description := "", price := 7, image := "b.png",
         category := "", stock := 0 }]
    customers := []
    orders := []
    order_items :=
      [{ id := "i1", order_id := "o1", product_id := idA, quantity := 9007199254740000,
         price := 12, created_at := 1 },
       { id := "i2", order_id := "o1", product_id := idA, quantity := 991, price := 12,
         created_at := 1 },
       { id := "i3", order_id := "o2", product_id := idA, quantity := 2, price := 12,
         created_at := 2 },
       { id := "i4", order_id := "o3", product_id := idB, quantity := 9007199254740000,
         price := 7, created_at := 3 },
       { id := "i5", order_id := "o3", product_id := idB, quantity := 992, price := 7,
         created_at := 3 }] }

/-- A second request from the same email with other contact fields. -/
def repeatRequest : OrderRequest :=
  { customer :=
      { name := "A. M. Silva", email := some "ana@example.com", phone := "3", address := "Rua 3",
        city := "Sal", zipCode := "4110" }
    items := [{ product := { id := "p1", name := "Mango", price := 20 }, quantity := 1 }]
    total := 20
    paymentInfo := none }

/-- The item `GET /api/orders` lists for the order of `sampleStore`. -/
def sampleListedItem : ListedItem :=
  { product :=
      { id := "p1", name := "Mango", price := 10, description := "ripe", image := "m.png",
        category := "fruit", stock := 8 }
    quantity := 2 }

/-- The order `GET /api/orders` lists for `sampleStore`. -/
def sampleListedOrder : ListedOrder :=
  { id := "o1", customer_id := "c1", total := 20, status := "PENDING",
    payment_card_name := none, payment_card_number_masked := none,
    created_at := 5, updated_at := 5,
    customer_name := "Ana", customer_email := some "ana@example.com", customer_phone := "1",
    customer_address := "Rua 1", customer_city := "Praia", customer_postal_code := "7600",
    items := [sampleListedItem] }

/-! ## Stock bookkeeping: placement and cancellation -/

theorem foldl_decrementStock (items : List ItemInput) (ps : List Product) :
    items.foldl (fun ps item => decrementStock ps item.product.id item.quantity) ps
      = ps.map (fun p => { p with stock := p.stock - orderedQuantity items p.id }) := by
  induction items generalizing ps with
  | nil => simp [orderedQuantity]
  | cons item rest ih =>
    rw [List.foldl_cons, ih]
    simp only [decrementStock, List.map_map]
    apply List.map_congr_left
    intro p _
    by_cases h : item.product.id = p.id
    · simp [h, orderedQuantity, List.filter_cons]
      omega
    · have h2 : ¬ p.id = item.product.id := fun e => h e.symm
      simp [h, h2, orderedQuantity, List.filter_cons]

theorem foldl_incrementStock (items : List OrderItem) (ps : List Product) :
    items.foldl (fun ps item => incrementStock ps item.product_id item.quantity) ps
      = ps.map (fun p => { p with stock := p.stock
          + ((items.filter (fun item => item.product_id = p.id)).map
              (fun item => item.quantity)).sum }) := by
  induction items generalizing ps with
  | nil => simp
  | cons item rest ih =>
    rw [List.foldl_cons, ih]
    simp only [incrementStock, List.map_map]
    apply List.map_congr_left
    intro p _
    by_cases h : item.product_id = p.id
    · simp [h, List.filter_cons]
      omega
    · have h2 : ¬ p.id = item.product_id := fun e => h e.symm
      simp [h, h2, List.filter_cons]

theorem restock_eq (s : Store) (id : String) :
    restock s id = s.products.map
      (fun p => { p with stock := p.stock + restockedQuantity s.order_items id p.id }) := by
  unfold restock
  rw [foldl_incrementStock]
  apply List.map_congr_left
  intro p _
  simp only [restockedQuantity, List.filter_filter]
  have hf : s.order_items.filter (fun a => decide (a.product_id = p.id) && decide (a.order_id = id))
      = s.order_items.filter (fun item => decide (item.order_id = id ∧ item.product_id = p.id)) := by
    apply List.filter_congr
    intro x _
    simp [Bool.and_comm]
  rw [hf]

theorem setOrderStatus_cancelled (u : Char → List Char) (now : Nat) (s : Store)
    (id raw : String) (h : mappedStatus u raw = some "CANCELLED") :
    setOrderStatus u now s id raw
      = some ({ s with products := restock s id
                       orders := updateStatus s.orders id "CANCELLED" now },
          ((updateStatus s.orders id "CANCELLED" now).filter (fun o => o.id = id)).head?) := by
  simp [setOrderStatus, h]

theorem placeOrder_products (gen : Nat → String) (now : Nat) (s : Store) (req : OrderRequest) :
    (placeOrder gen now s req).1.products
      = s.products.map
          (fun p => { p with stock := p.stock - orderedQuantity req.items p.id }) := by
  simp only [placeOrder]
  exact foldl_decrementStock req.items s.products

/-- C1: after `POST /api/orders` every product row is the row before the call
with its stock lowered by the sum of the quantities of the submitted items that
reference it; a product no item references keeps its stock. -/
theorem placeOrder_stock_decrement (gen : Nat → String) (now : Nat) (s : Store)
    (req : OrderRequest) :
    (placeOrder gen now s req).1.products
        = s.products.map
            (fun p => { p with stock := p.stock - orderedQuantity req.items p.id })
      ∧ (∀ id, (∀ item ∈ req.items, item.product.id ≠ id) → orderedQuantity req.items id = 0)
      ∧ (∀ item id, req.items = [item] → item.product.id = id →
          orderedQuantity req.items id = item.quantity) := by
  refine ⟨?_, ?_, ?_⟩
  · exact placeOrder_products gen now s req
  · intro id h
    have : req.items.filter (fun item => decide (item.product.id = id)) = [] := by
      simp only [List.filter_eq_nil_iff, decide_eq_true_eq]
      exact h
    simp [orderedQuantity, this]
  · intro item id h1 h2
    simp [orderedQuantity, h1, h2]

/-- C2: a status resolving to `CANCELLED` raises every product's stock by the sum
of the quantities of the order's stored items that reference it, with no
condition on the order row; a second such call raises it by the same amount
again. -/
theorem setOrderStatus_cancel_restocks (u : Char → List Char) (now now2 : Nat) (s : Store)
    (id raw : String) (h : mappedStatus u raw = some "CANCELLED") :
    ∃ s1 r1 s2 r2,
      setOrderStatus u now s id raw = some (s1, r1)
      ∧ s1.products = s.products.map
          (fun p => { p with stock := p.stock + restockedQuantity s.order_items id p.id })
      ∧ setOrderStatus u now2 s1 id raw = some (s2, r2)
      ∧ s2.products = s.products.map
          (fun p => { p with stock := p.stock + 2 * restockedQuantity s.order_items id p.id }) := by
  refine ⟨_, _, _, _, setOrderStatus_cancelled u now s id raw h, restock_eq s id,
    setOrderStatus_cancelled u now2 _ id raw h, ?_⟩
  simp only [restock_eq, List.map_map]
  apply List.map_congr_left
  intro p _
  simp only [Function.comp]
  congr 1
  omega

theorem setOrderStatus_cancel_restocks_witness :
    mappedStatus unchanged "Cancelado" = some "CANCELLED"
      ∧ ∃ s1 r1 s2 r2,
        setOrderStatus unchanged 6 sampleStore "o1" "Cancelado" = some (s1, r1)
        ∧ s1.products = sampleStore.products.map
            (fun p => { p with stock := p.stock + restockedQuantity sampleStore.order_items "o1" p.id })
        ∧ setOrderStatus unchanged 7 s1 "o1" "Cancelado" = some (s2, r2)
        ∧ s2.products = sampleStore.products.map
            (fun p => { p with
              stock := p.stock + 2 * restockedQuantity sampleStore.order_items "o1" p.id }) :=
  ⟨by decide, setOrderStatus_cancel_restocks unchanged 6 7 sampleStore "o1" "Cancelado" (by decide)⟩

/-! ## Status normalisation -/

theorem ascii_toUpper_not_lower (c : Char) (h : c.toNat < 128) : c.toUpper.isLower = false := by
  have key : ∀ n, n < 128 → (Char.ofNat n).toUpper.isLower = false := by decide
  have := key c.toNat h
  rwa [Char.ofNat_toNat] at this

theorem toUpperCase_no_lower (u : Char → List Char)
    (hu : ∀ c, 128 ≤ c.toNat → ∀ d ∈ u c, d.isLower = false) (raw : String) :
    ∀ d ∈ (toUpperCase u raw).data, d.isLower = false := by
  intro d hd
  simp only [toUpperCase, List.mem_flatMap] at hd
  obtain ⟨c, _, hc⟩ := hd
  unfold upperChar at hc
  split at hc
  · rename_i h
    simp only [List.mem_singleton] at hc
    subst hc
    exact ascii_toUpper_not_lower c h
  · rename_i h
    exact hu c (by omega) d hc

theorem toUpperCase_not_inherited (u : Char → List Char)
    (hu : ∀ c, 128 ≤ c.toNat → ∀ d ∈ u c, d.isLower = false) (raw : String) :
    toUpperCase u raw ∉ objectPrototypeKeys := by
  intro hmem
  have hkeys : ∀ k ∈ objectPrototypeKeys, ∃ d ∈ k.data, d.isLower = true := by decide
  obtain ⟨d, hd, hl⟩ := hkeys _ hmem
  have := toUpperCase_no_lower u hu raw d hd
  simp [hl] at this

theorem unchanged_no_lower : ∀ c, 128 ≤ c.toNat → ∀ d ∈ unchanged c, d.isLower = false := by
  intro c hc d hd
  simp only [unchanged, List.mem_singleton] at hd
  rw [hd]
  simp only [Char.isLower, Bool.and_eq_false_imp, decide_eq_true_eq, decide_eq_false_iff_not]
  intro _
  simp only [Char.toNat] at hc
  rw [UInt32.le_def, BitVec.le_def]
  show ¬ c.val.toNat ≤ 122
  omega

theorem upper_of_casing (u : Char → List Char) (s w : List Char)
    (hw : ∀ d ∈ w, d.toNat < 128 ∧ d.toUpper.toNat < 128 ∧ d.toUpper.toUpper = d.toUpper)
    (h : List.Forall₂ (fun c d => c = d ∨ c = d.toUpper) s w) :
    s.flatMap (upperChar u) = w.map Char.toUpper := by
  induction h with
  | nil => rfl
  | @cons c d cs ds hcd _ ih =>
    have hd := hw d (List.mem_cons_self _ _)
    have hrest := ih (fun e he => hw e (List.mem_cons_of_mem _ he))
    simp only [List.flatMap_cons, List.map_cons, hrest]
    rcases hcd with rfl | rfl
    · simp [upperChar, hd.1]
    · simp [upperChar, hd.2.1, hd.2.2]

theorem toUpperCase_of_casing (u : Char → List Char) (raw w : String)
    (hw : ∀ d ∈ w.data, d.toNat < 128 ∧ d.toUpper.toNat < 128 ∧ d.toUpper.toUpper = d.toUpper)
    (h : IsCasingOf raw w) :
    toUpperCase u raw = String.mk (w.data.map Char.toUpper) := by
  unfold toUpperCase
  rw [upper_of_casing u raw.data w.data hw h]

theorem statusMap_read (up : String) (hni : up ∉ objectPrototypeKeys) :
    (match getProp statusMap up with
      | .own v => some (if v = "" then up else v)
      | .undefined => some up
      | .inherited _ => none) = some (canonicalStatus up) := by
  unfold canonicalStatus getProp
  by_cases h1 : up = "PENDENTE"
  · subst h1; rfl
  by_cases h2 : up = "PAGO"
  · subst h2; rfl
  by_cases h3 : up = "ENVIADO"
  · subst h3; rfl
  by_cases h4 : up = "ENTREGUE"
  · subst h4; rfl
  by_cases h5 : up = "CANCELADO"
  · subst h5; rfl
  have hl : statusMap.find? (fun kv => kv.1 = up) = none := by
    simp [statusMap, List.find?, Ne.symm h1, Ne.symm h2, Ne.symm h3, Ne.symm h4, Ne.symm h5]
  simp [hl, hni, h1, h2, h3, h4, h5]

theorem mappedStatus_eq (u : Char → List Char)
    (hu : ∀ c, 128 ≤ c.toNat → ∀ d ∈ u c, d.isLower = false) (raw : String) :
    mappedStatus u raw = some (canonicalStatus (toUpperCase u raw)) :=
  statusMap_read (toUpperCase u raw) (toUpperCase_not_inherited u hu raw)

theorem updateStatus_eq (orders : List Order) (id mapped : String) (now : Nat) :
    updateStatus orders id mapped now
      = orders.map (fun o => if o.id = id then { o with status := mapped, updated_at := now } else o) :=
  rfl

theorem updateStatus_readback (orders : List Order) (id mapped : String) (now : Nat) :
    ((updateStatus orders id mapped now).filter (fun o => o.id = id)).head?
      = ((orders.filter (fun o => o.id = id)).head?).map
          (fun o => { o with status := mapped, updated_at := now }) := by
  induction orders with
  | nil => rfl
  | cons o rest ih =>
    rw [updateStatus_eq] at ih ⊢
    by_cases h : o.id = id
    · simp [List.filter_cons, h]
    · simpa [List.filter_cons, h] using ih

/-- C3: the status `PUT /api/orders/:id/status` persists is the spec's table
applied to the upper-cased input.  After the call the orders table is the table
before it with the status of every order of this id replaced by that value (and
`updated_at` by the clock), every other row and every other table but the
restocked products as they were; the row answered is the first such order,
updated.  Every casing of the five localized tokens is stored as its canonical
value, and a text whose upper-cased form is no table key is stored upper-cased
(`foo` as `FOO`). -/
theorem setOrderStatus_persists_canonical (u : Char → List Char)
    (hu : ∀ c, 128 ≤ c.toNat → ∀ d ∈ u c, d.isLower = false)
    (now : Nat) (s : Store) (id raw : String) :
    (∃ s1 r, setOrderStatus u now s id raw = some (s1, r)
        ∧ s1.orders = s.orders.map
            (fun o => if o.id = id
              then { o with status := canonicalStatus (toUpperCase u raw), updated_at := now }
              else o)
        ∧ (∀ o ∈ s.orders, o.id = id →
            { o with status := canonicalStatus (toUpperCase u raw), updated_at := now }
              ∈ s1.orders)
        ∧ (∀ o ∈ s.orders, o.id ≠ id → o ∈ s1.orders)
        ∧ (∀ o ∈ s1.orders, o.id = id → o.status = canonicalStatus (toUpperCase u raw))
        ∧ r = ((s.orders.filter (fun o => o.id = id)).head?).map
            (fun o => { o with status := canonicalStatus (toUpperCase u raw), updated_at := now })
        ∧ s1.customers = s.customers ∧ s1.order_items = s.order_items)
      ∧ (IsCasingOf raw "pendente" → canonicalStatus (toUpperCase u raw) = "PENDING")
      ∧ (IsCasingOf raw "pago" → canonicalStatus (toUpperCase u raw) = "PAID")
      ∧ (IsCasingOf raw "enviado" → canonicalStatus (toUpperCase u raw) = "SHIPPED")
      ∧ (IsCasingOf raw "entregue" → canonicalStatus (toUpperCase u raw) = "DELIVERED")
      ∧ (IsCasingOf raw "cancelado" → canonicalStatus (toUpperCase u raw) = "CANCELLED")
      ∧ (toUpperCase u raw ∉ ["PENDENTE", "PAGO", "ENVIADO", "ENTREGUE", "CANCELADO"] →
          canonicalStatus (toUpperCase u raw) = toUpperCase u raw)
      ∧ canonicalStatus (toUpperCase u "foo") = "FOO" := by
  refine ⟨?_, ?_, ?_, ?_, ?_, ?_, ?_, ?_⟩
  · refine ⟨{ s with
        products :=
          if canonicalStatus (toUpperCase u raw) = "CANCELLED" then restock s id else s.products
        orders := updateStatus s.orders id (canonicalStatus (toUpperCase u raw)) now },
      ((updateStatus s.orders id (canonicalStatus (toUpperCase u raw)) now).filter
        (fun o => o.id = id)).head?, ?_, updateStatus_eq _ _ _ _, ?_, ?_, ?_,
      updateStatus_readback _ _ _ _, rfl, rfl⟩
    · simp only [setOrderStatus, mappedStatus_eq u hu raw]
    · intro o ho hid
      show _ ∈ updateStatus s.orders id _ now
      rw [updateStatus_eq]
      refine List.mem_map.2 ⟨o, ho, ?_⟩
      rw [if_pos hid]
    · intro o ho hid
      show _ ∈ updateStatus s.orders id _ now
      rw [updateStatus_eq]
      refine List.mem_map.2 ⟨o, ho, ?_⟩
      rw [if_neg hid]
    · intro o ho hid
      have ho2 : o ∈ updateStatus s.orders id (canonicalStatus (toUpperCase u raw)) now := ho
      rw [updateStatus_eq] at ho2
      obtain ⟨o0, _, rfl⟩ := List.mem_map.1 ho2
      by_cases h : o0.id = id
      · simp [h]
      · simp [h] at hid
  · intro h
    rw [toUpperCase_of_casing u raw "pendente" (by decide) h]; rfl
  · intro h
    rw [toUpperCase_of_casing u raw "pago" (by decide) h]; rfl
  · intro h
    rw [toUpperCase_of_casing u raw "enviado" (by decide) h]; rfl
  · intro h
    rw [toUpperCase_of_casing u raw "entregue" (by decide) h]; rfl
  · intro h
    rw [toUpperCase_of_casing u raw "cancelado" (by decide) h]; rfl
  · intro h
    simp only [List.mem_cons, List.mem_singleton, List.not_mem_nil, or_false, not_or] at h
    simp [canonicalStatus, h]
  · rfl

theorem setOrderStatus_persists_canonical_witness :
    (∀ c, 128 ≤ c.toNat → ∀ d ∈ unchanged c, d.isLower = false)
      ∧ ((∃ s1 r, setOrderStatus unchanged 9 sampleStore "o1" "PaGo" = some (s1, r)
          ∧ s1.orders = sampleStore.orders.map
              (fun o => if o.id = "o1"
                then { o with status := canonicalStatus (toUpperCase unchanged "PaGo"),
                              updated_at := 9 }
                else o)
          ∧ (∀ o ∈ sampleStore.orders, o.id = "o1" →
              { o with status := canonicalStatus (toUpperCase unchanged "PaGo"), updated_at := 9 }
                ∈ s1.orders)
          ∧ (∀ o ∈ sampleStore.orders, o.id ≠ "o1" → o ∈ s1.orders)
          ∧ (∀ o ∈ s1.orders, o.id = "o1" →
              o.status = canonicalStatus (toUpperCase unchanged "PaGo"))
          ∧ r = ((sampleStore.orders.filter (fun o => o.id = "o1")).head?).map
              (fun o => { o with status := canonicalStatus (toUpperCase unchanged "PaGo"),
                                 updated_at := 9 })
          ∧ s1.customers = sampleStore.customers ∧ s1.order_items = sampleStore.order_items)
        ∧ (IsCasingOf "PaGo" "pendente" → canonicalStatus (toUpperCase unchanged "PaGo") = "PENDING")
        ∧ (IsCasingOf "PaGo" "pago" → canonicalStatus (toUpperCase unchanged "PaGo") = "PAID")
        ∧ (IsCasingOf "PaGo" "enviado" → canonicalStatus (toUpperCase unchanged "PaGo") = "SHIPPED")
        ∧ (IsCasingOf "PaGo" "entregue" →
            canonicalStatus (toUpperCase unchanged "PaGo") = "DELIVERED")
        ∧ (IsCasingOf "PaGo" "cancelado" →
            canonicalStatus (toUpperCase unchanged "PaGo") = "CANCELLED")
        ∧ (toUpperCase unchanged "PaGo" ∉ ["PENDENTE", "PAGO", "ENVIADO", "ENTREGUE", "CANCELADO"] →
            canonicalStatus (toUpperCase unchanged "PaGo") = toUpperCase unchanged "PaGo")
        ∧ canonicalStatus (toUpperCase unchanged "foo") = "FOO") :=
  ⟨unchanged_no_lower,
    setOrderStatus_persists_canonical unchanged unchanged_no_lower 9 sampleStore "o1" "PaGo"⟩

/-! ## Product creation and card masking -/

/-- C9: the row `POST /api/products` inserts takes `name` and `price` from the
body unchanged; an omitted `description`, `image`, `category` or `stock` is
stored as `''`, `''`, `''`, `0`; a supplied non-empty text and a supplied
non-zero stock are stored as given. -/
theorem createProduct_defaults (uuid : String) (s : Store) (body : ProductBody) :
    ∃ row : Product,
      (createProduct uuid s body).1.products = s.products ++ [row]
      ∧ ((∀ p ∈ s.products, p.id ≠ uuid) → (createProduct uuid s body).2 = some row)
      ∧ row.id = uuid ∧ row.name = body.name ∧ row.price = body.price
      ∧ (body.description = none → row.description = "")
      ∧ (body.image = none → row.image = "")
      ∧ (body.category = none → row.category = "")
      ∧ (body.stock = none → row.stock = 0)
      ∧ (∀ d, body.description = some d → d ≠ "" → row.description = d)
      ∧ (∀ d, body.image = some d → d ≠ "" → row.image = d)
      ∧ (∀ d, body.category = some d → d ≠ "" → row.category = d)
      ∧ (∀ n, body.stock = some n → n ≠ 0 → row.stock = n) := by
  refine ⟨newProductRow uuid body, rfl, ?_, rfl, rfl, rfl, ?_, ?_, ?_, ?_, ?_, ?_, ?_, ?_⟩
  · intro h
    have hf : s.products.filter (fun p => decide (p.id = uuid)) = [] := by
      simp only [List.filter_eq_nil_iff, decide_eq_true_eq]
      exact h
    simp [createProduct, List.filter_append, hf, newProductRow]
  all_goals
    intros
    simp_all [newProductRow, orString, orInt]

theorem utf16_bmp (l : List Char) (h : ∀ ch ∈ l, ch.toNat < 65536) :
    l.flatMap utf16Char = l.map Char.toNat := by
  induction l with
  | nil => rfl
  | cons ch rest ih =>
    have h1 := h ch (List.mem_cons_self _ _)
    have h2 := ih (fun x hx => h x (List.mem_cons_of_mem _ hx))
    simp [List.flatMap_cons, utf16Char, h1, h2]

theorem maskCard_some (pi : PaymentInfo) (c : String) (h2 : pi.cardNumber = some c)
    (h3 : c ≠ "") :
    maskCard (some pi) = some (utf16 "****-****-****-" ++ (utf16 c).drop ((utf16 c).length - 4)) := by
  simp [maskCard, h2, h3, sliceLast]

/-- C6: for a non-empty `cardNumber` the value stored on the order row, which the
response echoes, is `****-****-****-` followed by the last four characters of
the number (all of it when it is shorter), characters being UTF-16 code units as
`slice` counts them; for a number of Basic Multilingual Plane characters, its
digits for example, these are its last four code points; `4111111111111111`
gives `****-****-****-1111`; `1234` followed by U+1F600 gives the mask followed
by `34` and the two surrogates; an absent or empty number gives `null`. -/
theorem placeOrder_masks_card (gen : Nat → String) (now : Nat) (s : Store)
    (req : OrderRequest) :
    ∃ row : Order,
      (placeOrder gen now s req).1.orders = s.orders ++ [row]
      ∧ row.id = (placeOrder gen now s req).2.id
      ∧ (placeOrder gen now s req).2.payment_info.card_number_masked
          = row.payment_card_number_masked
      ∧ (∀ pi c, req.paymentInfo = some pi → pi.cardNumber = some c → c ≠ "" →
          ∃ last : JSString,
            row.payment_card_number_masked = some (utf16 "****-****-****-" ++ last)
            ∧ last <:+ utf16 c ∧ last.length = min 4 (utf16 c).length)
      ∧ (∀ pi c, req.paymentInfo = some pi → pi.cardNumber = some c → c ≠ "" →
          (∀ ch ∈ c.data, ch.toNat < 65536) →
          ∃ last : List Char,
            row.payment_card_number_masked
              = some (utf16 ("****-****-****-" ++ String.mk last))
            ∧ last <:+ c.data ∧ last.length = min 4 c.data.length)
      ∧ (req.paymentInfo = none → row.payment_card_number_masked = none)
      ∧ (∀ pi, req.paymentInfo = some pi → pi.cardNumber = none →
          row.payment_card_number_masked = none)
      ∧ (∀ pi, req.paymentInfo = some pi → pi.cardNumber = some "" →
          row.payment_card_number_masked = none)
      ∧ (∀ pi, req.paymentInfo = some pi → pi.cardNumber = some "4111111111111111" →
          row.payment_card_number_masked = some (utf16 "****-****-****-1111")
          ∧ utf16 "****-****-****-1111"
            = [42, 42, 42, 42, 45, 42, 42, 42, 42, 45, 42, 42, 42, 42, 45, 49, 49, 49, 49])
      ∧ (∀ pi, req.paymentInfo = some pi →
          pi.cardNumber = some (String.mk ['1', '2', '3', '4', Char.ofNat 128512]) →
          row.payment_card_number_masked
            = some (utf16 "****-****-****-" ++ [51, 52, 55357, 56832])) := by
  refine ⟨_, rfl, rfl, rfl, ?_, ?_, ?_, ?_, ?_, ?_, ?_⟩
  · intro pi c h1 h2 h3
    refine ⟨(utf16 c).drop ((utf16 c).length - 4), ?_, List.drop_suffix _ _, ?_⟩
    · show maskCard req.paymentInfo = _
      rw [h1, maskCard_some pi c h2 h3]
    · simp only [List.length_drop]
      omega
  · intro pi c h1 h2 h3 hbmp
    refine ⟨c.data.drop (c.data.length - 4), ?_, List.drop_suffix _ _, ?_⟩
    · show maskCard req.paymentInfo = _
      rw [h1, maskCard_some pi c h2 h3]
      have hdrop : ∀ ch ∈ c.data.drop (c.data.length - 4), ch.toNat < 65536 :=
        fun ch hch => hbmp ch (List.mem_of_mem_drop hch)
      simp only [utf16, String.data_append, List.flatMap_append, utf16_bmp c.data hbmp,
        utf16_bmp _ hdrop, List.length_map, List.map_drop]
    · simp only [List.length_drop]
      omega
  · intro h
    show maskCard req.paymentInfo = _
    simp [maskCard, h]
  · intro pi h1 h2
    show maskCard req.paymentInfo = _
    simp [maskCard, h1, h2]
  · intro pi h1 h2
    show maskCard req.paymentInfo = _
    simp [maskCard, h1, h2]
  · intro pi h1 h2
    refine ⟨?_, by decide⟩
    show maskCard req.paymentInfo = _
    rw [h1, maskCard_some pi _ h2 (by decide)]
    decide
  · intro pi h1 h2
    show maskCard req.paymentInfo = _
    rw [h1, maskCard_some pi _ h2 (by decide)]
    decide

/-! ## Order listing -/

/-- C8 as stated fails: in `sampleStore` the product costs 20 at listing time and
the listed item carries 10, the price kept on the order item. -/
theorem listOrders_price_not_current :
    ¬ (∀ o ∈ listOrders sampleStore, ∀ e ∈ o.items,
        ∃ p ∈ sampleStore.products, p.id = e.product.id ∧ e.product.name = p.name
          ∧ e.product.price = p.price ∧ e.product.description = p.description
          ∧ e.product.image = p.image ∧ e.product.category = p.category
          ∧ e.product.stock = p.stock) := by
  decide

theorem orString_some (x : String) : orString (some x) "" = x := by
  unfold orString
  split
  · rename_i v h
    cases h
    split
    · rename_i h2
      exact h2.symm
    · rfl
  · rename_i h
    cases h

/-- C8, amended: every listed item is `{product, quantity}` built from one stored
item of that order and the product row it references as it is at listing time;
name, description, image, category and stock are that row's current values, and
the listed price is the price kept on the order item. -/
theorem listOrders_item_fields (s : Store) :
    ∀ o ∈ listOrders s, ∀ e ∈ o.items,
      ∃ oi ∈ s.order_items, ∃ p ∈ s.products,
        oi.order_id = o.id ∧ oi.product_id = p.id
        ∧ e.quantity = oi.quantity
        ∧ e.product.id = p.id ∧ e.product.name = p.name
        ∧ e.product.description = p.description ∧ e.product.image = p.image
        ∧ e.product.category = p.category ∧ e.product.stock = p.stock
        ∧ e.product.price = oi.price := by
  intro o ho e he
  simp only [listOrders, List.mem_map] at ho
  obtain ⟨ow, _, rfl⟩ := ho
  simp only [List.mem_map, itemsWithProducts, List.mem_filter, List.mem_flatMap,
    decide_eq_true_eq] at he
  obtain ⟨item, ⟨⟨oi, hoi, p, ⟨hp, hpid⟩, rfl⟩, hord⟩, rfl⟩ := he
  refine ⟨oi, hoi, p, hp, hord, hpid, rfl, hpid, rfl, ?_, ?_, ?_, rfl, rfl⟩
  · exact orString_some _
  · exact orString_some _
  · exact orString_some _

theorem listOrders_item_fields_witness :
    sampleListedOrder ∈ listOrders sampleStore
      ∧ sampleListedItem ∈ sampleListedOrder.items
      ∧ ∃ oi ∈ sampleStore.order_items, ∃ p ∈ sampleStore.products,
        oi.order_id = sampleListedOrder.id ∧ oi.product_id = p.id
        ∧ sampleListedItem.quantity = oi.quantity
        ∧ sampleListedItem.product.id = p.id ∧ sampleListedItem.product.name = p.name
        ∧ sampleListedItem.product.description = p.description
        ∧ sampleListedItem.product.image = p.image
        ∧ sampleListedItem.product.category = p.category
        ∧ sampleListedItem.product.stock = p.stock
        ∧ sampleListedItem.product.price = oi.price :=
  ⟨by decide, by decide,
    listOrders_item_fields sampleStore sampleListedOrder (by decide) sampleListedItem
      (by decide)⟩

/-! ## Find-or-create of the customer -/

theorem findOrCreateCustomer_found (gen : Nat → String) (customers : List Customer)
    (customer : CustomerInput) (e : String) (c : Customer)
    (he : customer.email = some e) (hne : e ≠ "")
    (hc : customers.find? (fun c => c.email = some e) = some c) :
    findOrCreateCustomer gen customers customer = (customers, c, 0) := by
  simp [findOrCreateCustomer, he, truthy, hne, hc]

theorem findOrCreateCustomer_lookup (gen : Nat → String) (customers : List Customer)
    (customer : CustomerInput) (e : String)
    (he : customer.email = some e) (hne : e ≠ "") :
    ∃ c, (findOrCreateCustomer gen customers customer).1.find? (fun c => c.email = some e) = some c
      ∧ c.id = (findOrCreateCustomer gen customers customer).2.1.id := by
  cases hc : customers.find? (fun c => c.email = some e) with
  | some c =>
    rw [findOrCreateCustomer_found gen customers customer e c he hne hc]
    exact ⟨c, hc, rfl⟩
  | none =>
    have hnew : (newCustomerRow (gen 0) customer).email = some e := he
    have hfind : (customers ++ [newCustomerRow (gen 0) customer]).find?
        (fun c => c.email = some e) = some (newCustomerRow (gen 0) customer) := by
      simp [List.find?_append, hc, List.find?_cons, hnew]
    simp only [findOrCreateCustomer, he, truthy, bne_iff_ne, ne_eq, hne, not_false_eq_true,
      decide_True, if_true, hc]
    split
    · rename_i c hfc
      refine ⟨_, hfind, ?_⟩
      have := List.find?_some hfc
      simp only [decide_eq_true_eq] at this
      exact this.symm
    · exact ⟨_, hfind, rfl⟩

theorem placeOrder_customers (gen : Nat → String) (now : Nat) (s : Store)
    (req : OrderRequest) :
    (placeOrder gen now s req).1.customers
      = (findOrCreateCustomer gen s.customers req.customer).1 := rfl

theorem placeOrder_customer_echo (gen : Nat → String) (now : Nat) (s : Store)
    (req : OrderRequest) :
    (placeOrder gen now s req).2.customer
      = { id := (findOrCreateCustomer gen s.customers req.customer).2.1.id
          name := (findOrCreateCustomer gen s.customers req.customer).2.1.full_name
          email := (findOrCreateCustomer gen s.customers req.customer).2.1.email } := rfl

theorem placeOrder_orders (gen : Nat → String) (now : Nat) (s : Store) (req : OrderRequest) :
    ∃ row : Order, (placeOrder gen now s req).1.orders = s.orders ++ [row]
      ∧ row.customer_id = (findOrCreateCustomer gen s.customers req.customer).2.1.id :=
  ⟨_, rfl, rfl⟩

/-- C7: two orders placed one after the other with the same non-empty
`customer.email` resolve to the same customer id; the second call leaves the
customers table as the first left it and answers the name of a row already
stored, not the submitted one. -/
theorem placeOrder_same_email_same_customer (gen1 gen2 : Nat → String) (now1 now2 : Nat)
    (s : Store) (req1 req2 : OrderRequest) (e : String)
    (h1 : req1.customer.email = some e) (h2 : req2.customer.email = some e) (hne : e ≠ "") :
    (placeOrder gen2 now2 (placeOrder gen1 now1 s req1).1 req2).2.customer.id
        = (placeOrder gen1 now1 s req1).2.customer.id
      ∧ (placeOrder gen2 now2 (placeOrder gen1 now1 s req1).1 req2).1.customers
        = (placeOrder gen1 now1 s req1).1.customers
      ∧ (∃ row : Order,
          (placeOrder gen2 now2 (placeOrder gen1 now1 s req1).1 req2).1.orders
            = (placeOrder gen1 now1 s req1).1.orders ++ [row]
          ∧ row.customer_id = (placeOrder gen1 now1 s req1).2.customer.id)
      ∧ (∃ c ∈ (placeOrder gen1 now1 s req1).1.customers,
          c.email = some e
          ∧ (placeOrder gen2 now2 (placeOrder gen1 now1 s req1).1 req2).2.customer
            = { id := c.id, name := c.full_name, email := c.email }) := by
  obtain ⟨c, hc, hid⟩ := findOrCreateCustomer_lookup gen1 s.customers req1.customer e h1 hne
  have hs1 := placeOrder_customers gen1 now1 s req1
  have hr1 : (placeOrder gen1 now1 s req1).2.customer.id
      = (findOrCreateCustomer gen1 s.customers req1.customer).2.1.id := by
    rw [placeOrder_customer_echo]
  have hsecond := findOrCreateCustomer_found gen2 (placeOrder gen1 now1 s req1).1.customers
    req2.customer e c h2 hne (by rw [hs1]; exact hc)
  have hmem : c ∈ (placeOrder gen1 now1 s req1).1.customers := by
    rw [hs1]; exact List.mem_of_find?_eq_some hc
  have hemail : c.email = some e := by
    have := List.find?_some hc
    simpa using this
  obtain ⟨row, hrow, hcust⟩ := placeOrder_orders gen2 now2 (placeOrder gen1 now1 s req1).1 req2
  refine ⟨?_, ?_, ⟨row, hrow, ?_⟩, c, hmem, hemail, ?_⟩
  · rw [placeOrder_customer_echo, hsecond, hr1, ← hid]
  · rw [placeOrder_customers, hsecond]
  · rw [hcust, hsecond, hr1, ← hid]
  · rw [placeOrder_customer_echo, hsecond]

theorem placeOrder_same_email_same_customer_witness :
    sampleRequest.customer.email = some "ana@example.com"
      ∧ repeatRequest.customer.email = some "ana@example.com"
      ∧ "ana@example.com" ≠ ""
      ∧ ((placeOrder sampleIds 7 (placeOrder sampleIds 6 sampleStore sampleRequest).1
            repeatRequest).2.customer.id
          = (placeOrder sampleIds 6 sampleStore sampleRequest).2.customer.id
        ∧ (placeOrder sampleIds 7 (placeOrder sampleIds 6 sampleStore sampleRequest).1
            repeatRequest).1.customers
          = (placeOrder sampleIds 6 sampleStore sampleRequest).1.customers
        ∧ (∃ row : Order,
            (placeOrder sampleIds 7 (placeOrder sampleIds 6 sampleStore sampleRequest).1
              repeatRequest).1.orders
              = (placeOrder sampleIds 6 sampleStore sampleRequest).1.orders ++ [row]
            ∧ row.customer_id = (placeOrder sampleIds 6 sampleStore sampleRequest).2.customer.id)
        ∧ (∃ c ∈ (placeOrder sampleIds 6 sampleStore sampleRequest).1.customers,
            c.email = some "ana@example.com"
            ∧ (placeOrder sampleIds 7 (placeOrder sampleIds 6 sampleStore sampleRequest).1
                repeatRequest).2.customer
              = { id := c.id, name := c.full_name, email := c.email })) :=
  ⟨rfl, rfl, by decide,
    placeOrder_same_email_same_customer sampleIds sampleIds 6 7 sampleStore sampleRequest
      repeatRequest "ana@example.com" rfl rfl (by decide)⟩

/-! ## Placement followed by cancellation -/

theorem makeOrderItems_quantity (gen : Nat → String) (base now : Nat) (orderId id : String)
    (items : List ItemInput) :
    (((makeOrderItems gen base now orderId items).filter
        (fun item => item.order_id = orderId ∧ item.product_id = id)).map
        (fun item => item.quantity)).sum = orderedQuantity items id := by
  induction items generalizing base with
  | nil => simp [makeOrderItems, orderedQuantity]
  | cons item rest ih =>
    have ih2 := ih (base + 1)
    simp only [orderedQuantity, Bool.decide_and] at ih2 ⊢
    by_cases h : item.product.id = id
    · simp [makeOrderItems, List.filter_cons, h, ih2]
    · simp [makeOrderItems, List.filter_cons, h, ih2]

/-- C10: placing an order and then setting that order's status to a token that
resolves to `CANCELLED` leaves the products table, every stock included, as it
was before the placement, also when several items reference one product; the
order id drawn must not already be in use by stored items. -/
theorem placeOrder_then_cancel_restores_stock (u : Char → List Char) (gen : Nat → String)
    (now now2 : Nat) (s : Store) (req : OrderRequest) (raw : String)
    (hraw : mappedStatus u raw = some "CANCELLED")
    (hfresh : ∀ oi ∈ s.order_items, oi.order_id ≠ (placeOrder gen now s req).2.id) :
    ∃ s2 r, setOrderStatus u now2 (placeOrder gen now s req).1
        (placeOrder gen now s req).2.id raw = some (s2, r)
      ∧ s2.products = s.products := by
  refine ⟨_, _, setOrderStatus_cancelled u now2 _ _ raw hraw, ?_⟩
  simp only [restock_eq]
  rw [placeOrder_products gen now s req, List.map_map]
  conv_rhs => rw [← List.map_id s.products]
  apply List.map_congr_left
  intro p _
  have hold : s.order_items.filter (fun item =>
      decide (item.order_id = (placeOrder gen now s req).2.id ∧ item.product_id = p.id)) = [] := by
    simp only [List.filter_eq_nil_iff, decide_eq_true_eq, not_and]
    intro oi hoi h
    exact absurd h (hfresh oi hoi)
  have hq : restockedQuantity (placeOrder gen now s req).1.order_items
      (placeOrder gen now s req).2.id p.id = orderedQuantity req.items p.id := by
    unfold restockedQuantity
    have : (placeOrder gen now s req).1.order_items = s.order_items
        ++ makeOrderItems gen ((findOrCreateCustomer gen s.customers req.customer).2.2 + 1) now
            (placeOrder gen now s req).2.id req.items := rfl
    rw [this, List.filter_append, hold, List.nil_append]
    exact makeOrderItems_quantity _ _ _ _ _ _
  simp only [Function.comp, id, hq]
  cases p
  simp

theorem placeOrder_then_cancel_restores_stock_witness :
    mappedStatus unchanged "cancelado" = some "CANCELLED"
      ∧ (∀ oi ∈ sampleStore.order_items,
          oi.order_id ≠ (placeOrder sampleIds 6 sampleStore sampleRequest).2.id)
      ∧ ∃ s2 r, setOrderStatus unchanged 7 (placeOrder sampleIds 6 sampleStore sampleRequest).1
          (placeOrder sampleIds 6 sampleStore sampleRequest).2.id "cancelado" = some (s2, r)
        ∧ s2.products = sampleStore.products :=
  ⟨by decide, by decide,
    placeOrder_then_cancel_restores_stock unchanged sampleIds 6 7 sampleStore sampleRequest
      "cancelado" (by decide) (by decide)⟩

/-! ## Statistics: the accumulation pass -/

theorem accumulatedQuantity_append (rows : List StatsRow) (r : StatsRow) (k : String) :
    accumulatedQuantity (rows ++ [r]) k
      = accumulatedQuantity rows k + (if k = r.product_id then r.quantity else 0) := by
  by_cases h : k = r.product_id
  · simp [accumulatedQuantity, List.filter_append, List.filter_cons, h]
  · have h2 : ¬ r.product_id = k := fun e => h e.symm
    simp [accumulatedQuantity, List.filter_append, List.filter_cons, h, h2]

theorem find?_append_of_some (rows : List StatsRow) (r r0 : StatsRow) (k : String)
    (h : rows.find? (fun x => x.product_id = k) = some r0) :
    (rows ++ [r]).find? (fun x => x.product_id = k) = some r0 := by
  simp [List.find?_append, h]

theorem firstSeenAt_append_of_some (rows : List StatsRow) (r r0 : StatsRow) (k : String)
    (h : rows.find? (fun x => x.product_id = k) = some r0) :
    firstSeenAt (rows ++ [r]) k = firstSeenAt rows k ∧ firstSeenAt rows k < rows.length := by
  have hlt : rows.findIdx (fun x => decide (x.product_id = k)) < rows.length :=
    List.findIdx_lt_length_of_exists
      ⟨r0, List.mem_of_find?_eq_some h, by
        have := List.find?_some h
        simpa using this⟩
  unfold firstSeenAt
  rw [List.findIdx_append]
  simp [hlt]

theorem firstSeenAt_append_of_none (rows : List StatsRow) (r : StatsRow)
    (h : ∀ x ∈ rows, x.product_id ≠ r.product_id) :
    firstSeenAt (rows ++ [r]) r.product_id = rows.length := by
  have hlen : rows.findIdx (fun x => decide (x.product_id = r.product_id)) = rows.length := by
    apply List.findIdx_eq_length_of_false
    intro x hx
    simpa using h x hx
  unfold firstSeenAt
  rw [List.findIdx_append, hlen]
  simp [List.findIdx_cons]

theorem addQuantity_of_absent (acc : List (String × StatEntry)) (k : String) (q : Int)
    (h : ∀ kv ∈ acc, kv.1 ≠ k) : addQuantity acc k q = acc := by
  unfold addQuantity
  conv_rhs => rw [← List.map_id acc]
  apply List.map_congr_left
  intro kv hkv
  simp [h kv hkv]

theorem mem_addQuantity (acc : List (String × StatEntry)) (k : String) (q : Int)
    (kv1 : String × StatEntry) (h : kv1 ∈ addQuantity acc k q) :
    ∃ kv ∈ acc, kv1.1 = kv.1 ∧ kv1.2.product = kv.2.product
      ∧ kv1.2.quantity = (if kv.1 = k then jsAdd kv.2.quantity q else kv.2.quantity) := by
  simp only [addQuantity, List.mem_map] at h
  obtain ⟨kv, hkv, rfl⟩ := h
  refine ⟨kv, hkv, ?_⟩
  by_cases hk : kv.1 = k
  · simp [hk]
  · simp [hk]

theorem addQuantity_key (acc : List (String × StatEntry)) (k : String) (q : Int)
    (kv : String × StatEntry) (h : kv ∈ acc) : ∃ kv1 ∈ addQuantity acc k q, kv1.1 = kv.1 := by
  refine ⟨_, List.mem_map_of_mem _ h, ?_⟩
  by_cases hk : kv.1 = k
  · simp [hk]
  · simp [hk]

theorem addQuantity_pairwise (acc : List (String × StatEntry)) (k : String) (q : Int)
    (R : String → String → Prop) (h : acc.Pairwise (fun a b => R a.1 b.1)) :
    (addQuantity acc k q).Pairwise (fun a b => R a.1 b.1) := by
  unfold addQuantity
  rw [List.pairwise_map]
  refine h.imp ?_
  intro a b hab
  by_cases ha : a.1 = k <;> by_cases hb : b.1 = k <;> simp [ha, hb] <;> simpa [ha, hb] using hab

theorem accInv_nil : AccInv [] [] :=
  ⟨by simp, by simp, List.Pairwise.nil⟩

theorem accInv_skip {rows : List StatsRow} {acc : List (String × StatEntry)}
    (h : AccInv rows acc) (r : StatsRow)
    (hr : r.product_id = "" ∨ r.product_id ∈ objectPrototypeKeys) :
    AccInv (rows ++ [r]) acc := by
  have hkey : ∀ kv ∈ acc, kv.1 ≠ r.product_id := by
    intro kv hkv e
    obtain ⟨h1, h2, _⟩ := h.entry kv hkv
    rcases hr with hr | hr
    · exact h1 (e.trans hr)
    · exact h2 (e ▸ hr)
  refine ⟨?_, ?_, ?_⟩
  · intro kv hkv
    obtain ⟨h1, h2, h3, r0, h4, h5⟩ := h.entry kv hkv
    refine ⟨h1, h2, ?_, r0, find?_append_of_some rows r r0 kv.1 h4, h5⟩
    rw [accumulatedQuantity_append, if_neg (hkey kv hkv), h3]
    simp
  · intro x hx hne hnp
    rcases List.mem_append.1 hx with hx | hx
    · exact h.complete x hx hne hnp
    · simp only [List.mem_singleton] at hx
      subst hx
      rcases hr with hr | hr
      · exact absurd hr hne
      · exact absurd hr hnp
  · refine h.order.imp_of_mem ?_
    intro a b ha hb hab
    obtain ⟨_, _, _, ra, hra, _⟩ := h.entry a ha
    obtain ⟨_, _, _, rb, hrb, _⟩ := h.entry b hb
    rw [(firstSeenAt_append_of_some rows r ra a.1 hra).1,
      (firstSeenAt_append_of_some rows r rb b.1 hrb).1]
    exact hab

theorem accInv_own {rows : List StatsRow} {acc : List (String × StatEntry)}
    (h : AccInv rows acc) (r : StatsRow) (kv0 : String × StatEntry)
    (hf : acc.find? (fun kv => kv.1 = r.product_id) = some kv0)
    (hexact : jsAdd (accumulatedQuantity rows r.product_id) r.quantity
      = accumulatedQuantity rows r.product_id + r.quantity) :
    AccInv (rows ++ [r]) (addQuantity acc r.product_id r.quantity) := by
  have hmem0 : kv0 ∈ acc := List.mem_of_find?_eq_some hf
  have hkey0 : kv0.1 = r.product_id := by
    have := List.find?_some hf
    simpa using this
  refine ⟨?_, ?_, ?_⟩
  · intro kv1 hkv1
    obtain ⟨kv, hkv, e1, e2, e3⟩ := mem_addQuantity acc _ _ kv1 hkv1
    obtain ⟨h1, h2, h3, r0, h4, h5⟩ := h.entry kv hkv
    rw [e1, e2, e3]
    refine ⟨h1, h2, ?_, r0, find?_append_of_some rows r r0 kv.1 h4, h5⟩
    rw [accumulatedQuantity_append]
    by_cases hk : kv.1 = r.product_id
    · rw [if_pos hk, if_pos hk, h3, hk, hexact]
    · rw [if_neg hk, if_neg hk, h3]
      simp
  · intro x hx hne hnp
    rcases List.mem_append.1 hx with hx | hx
    · obtain ⟨kv, hkv, e⟩ := h.complete x hx hne hnp
      obtain ⟨kv1, hkv1, e1⟩ := addQuantity_key acc r.product_id r.quantity kv hkv
      exact ⟨kv1, hkv1, e1.trans e⟩
    · simp only [List.mem_singleton] at hx
      subst hx
      obtain ⟨kv1, hkv1, e1⟩ := addQuantity_key acc x.product_id x.quantity kv0 hmem0
      exact ⟨kv1, hkv1, e1.trans hkey0⟩
  · apply addQuantity_pairwise acc r.product_id r.quantity
      (fun a b => firstSeenAt (rows ++ [r]) a < firstSeenAt (rows ++ [r]) b)
    refine h.order.imp_of_mem ?_
    intro a b ha hb hab
    obtain ⟨_, _, _, ra, hra, _⟩ := h.entry a ha
    obtain ⟨_, _, _, rb, hrb, _⟩ := h.entry b hb
    rw [(firstSeenAt_append_of_some rows r ra a.1 hra).1,
      (firstSeenAt_append_of_some rows r rb b.1 hrb).1]
    exact hab

theorem accInv_fresh {rows : List StatsRow} {acc : List (String × StatEntry)}
    (h : AccInv rows acc) (r : StatsRow) (hne : r.product_id ≠ "")
    (hnp : r.product_id ∉ objectPrototypeKeys)
    (hf : acc.find? (fun kv => kv.1 = r.product_id) = none)
    (hexact : jsAdd (accumulatedQuantity rows r.product_id) r.quantity
      = accumulatedQuantity rows r.product_id + r.quantity) :
    AccInv (rows ++ [r])
      (addQuantity (acc ++ [(r.product_id, { quantity := 0, product := some (snapshot r) })])
        r.product_id r.quantity) := by
  have hkey : ∀ kv ∈ acc, kv.1 ≠ r.product_id := by
    intro kv hkv
    have := List.find?_eq_none.1 hf kv hkv
    simpa using this
  have hrows : ∀ x ∈ rows, x.product_id ≠ r.product_id := by
    intro x hx e
    obtain ⟨kv, hkv, e1⟩ := h.complete x hx (e ▸ hne) (e ▸ hnp)
    exact hkey kv hkv (e1.trans e)
  have hq0 : accumulatedQuantity rows r.product_id = 0 := by
    have : rows.filter (fun x => decide (x.product_id = r.product_id)) = [] := by
      simp only [List.filter_eq_nil_iff, decide_eq_true_eq]
      exact hrows
    simp [accumulatedQuantity, this]
  have hadd : jsAdd 0 r.quantity = r.quantity := by
    rw [hq0] at hexact
    simpa using hexact
  have hshape : addQuantity (acc ++ [(r.product_id, { quantity := 0, product := some (snapshot r) })])
      r.product_id r.quantity
      = acc ++ [(r.product_id, { quantity := r.quantity, product := some (snapshot r) })] := by
    have := addQuantity_of_absent acc r.product_id r.quantity hkey
    unfold addQuantity at this ⊢
    rw [List.map_append, this]
    simp [hadd]
  have hfind : (rows ++ [r]).find? (fun x => x.product_id = r.product_id) = some r := by
    have : rows.find? (fun x => decide (x.product_id = r.product_id)) = none := by
      simp only [List.find?_eq_none, decide_eq_true_eq]
      exact hrows
    simp [List.find?_append, this]
  rw [hshape]
  refine ⟨?_, ?_, ?_⟩
  · intro kv hkv
    rcases List.mem_append.1 hkv with hkv | hkv
    · obtain ⟨h1, h2, h3, r0, h4, h5⟩ := h.entry kv hkv
      refine ⟨h1, h2, ?_, r0, find?_append_of_some rows r r0 kv.1 h4, h5⟩
      rw [accumulatedQuantity_append, if_neg (hkey kv hkv), h3]
      simp
    · simp only [List.mem_singleton] at hkv
      subst hkv
      refine ⟨hne, hnp, ?_, r, hfind, rfl⟩
      rw [accumulatedQuantity_append, hq0]
      simp
  · intro x hx hxne hxnp
    rcases List.mem_append.1 hx with hx | hx
    · obtain ⟨kv, hkv, e⟩ := h.complete x hx hxne hxnp
      exact ⟨kv, List.mem_append_left _ hkv, e⟩
    · simp only [List.mem_singleton] at hx
      subst hx
      exact ⟨_, List.mem_append_right _ (List.mem_singleton_self _), rfl⟩
  · rw [List.pairwise_append]
    refine ⟨?_, List.pairwise_singleton _ _, ?_⟩
    · refine h.order.imp_of_mem ?_
      intro a b ha hb hab
      obtain ⟨_, _, _, ra, hra, _⟩ := h.entry a ha
      obtain ⟨_, _, _, rb, hrb, _⟩ := h.entry b hb
      rw [(firstSeenAt_append_of_some rows r ra a.1 hra).1,
        (firstSeenAt_append_of_some rows r rb b.1 hrb).1]
      exact hab
    · intro a ha b hb
      simp only [List.mem_singleton] at hb
      subst hb
      obtain ⟨_, _, _, ra, hra, _⟩ := h.entry a ha
      have := firstSeenAt_append_of_some rows r ra a.1 hra
      rw [this.1, firstSeenAt_append_of_none rows r hrows]
      exact this.2

theorem accInv_step {rows : List StatsRow} {acc : List (String × StatEntry)}
    (h : AccInv rows acc) (r : StatsRow)
    (hexact : jsAdd (accumulatedQuantity rows r.product_id) r.quantity
      = accumulatedQuantity rows r.product_id + r.quantity) :
    AccInv (rows ++ [r]) (accumulate acc r) := by
  unfold accumulate
  by_cases h0 : r.product_id = ""
  · rw [if_pos h0]
    exact accInv_skip h r (Or.inl h0)
  · rw [if_neg h0]
    cases hf : acc.find? (fun kv => kv.1 = r.product_id) with
    | some kv0 =>
      simp only [getProp, hf]
      exact accInv_own h r kv0 hf hexact
    | none =>
      by_cases hp : r.product_id ∈ objectPrototypeKeys
      · simp only [getProp, hf, if_pos hp]
        exact accInv_skip h r (Or.inr hp)
      · simp only [getProp, hf, if_neg hp]
        exact accInv_fresh h r h0 hp hf hexact

theorem toDouble_exact (n : Int) (h0 : 0 ≤ n) (h1 : n ≤ 2 ^ 53) : toDouble n = n := by
  have hle : n.toNat ≤ 2 ^ 53 := by omega
  unfold toDouble roundNat
  rw [if_pos h0, if_pos hle]
  exact Int.toNat_of_nonneg h0

theorem accumulatedQuantity_nonneg (rows : List StatsRow) (k : String)
    (hpos : ∀ r ∈ rows, 0 < r.quantity) : 0 ≤ accumulatedQuantity rows k := by
  unfold accumulatedQuantity
  apply List.sum_nonneg
  intro x hx
  simp only [List.mem_map, List.mem_filter] at hx
  obtain ⟨r, ⟨hr, _⟩, rfl⟩ := hx
  exact le_of_lt (hpos r hr)

theorem productQuantities_inv (rows : List StatsRow) (hpos : ∀ r ∈ rows, 0 < r.quantity)
    (hbound : ∀ k, accumulatedQuantity rows k ≤ 2 ^ 53) :
    AccInv rows (productQuantities rows) := by
  induction rows using List.reverseRecOn with
  | nil => exact accInv_nil
  | append_singleton rows r ih =>
    have hpos1 : ∀ x ∈ rows, 0 < x.quantity :=
      fun x hx => hpos x (List.mem_append_left _ hx)
    have hr : 0 < r.quantity := hpos r (List.mem_append_right _ (List.mem_singleton_self _))
    have hstep : ∀ k, accumulatedQuantity rows k ≤ accumulatedQuantity (rows ++ [r]) k := by
      intro k
      rw [accumulatedQuantity_append]
      split <;> omega
    have hbound1 : ∀ k, accumulatedQuantity rows k ≤ 2 ^ 53 :=
      fun k => le_trans (hstep k) (hbound k)
    have hexact : jsAdd (accumulatedQuantity rows r.product_id) r.quantity
        = accumulatedQuantity rows r.product_id + r.quantity := by
      have h0 := accumulatedQuantity_nonneg rows r.product_id hpos1
      have h1 := hbound r.product_id
      rw [accumulatedQuantity_append, if_pos rfl] at h1
      exact toDouble_exact _ (by omega) h1
    have inv := ih hpos1 hbound1
    unfold productQuantities at inv ⊢
    rw [List.foldl_append]
    exact accInv_step inv r hexact

/-! ## Statistics: the selection -/

theorem reduce_max (l : List StatEntry) (init : StatEntry) :
    (l.foldl (fun prev current => if prev.quantity > current.quantity then prev else current) init
        = init
      ∨ l.foldl (fun prev current => if prev.quantity > current.quantity then prev else current) init
        ∈ l)
    ∧ init.quantity ≤ (l.foldl
        (fun prev current => if prev.quantity > current.quantity then prev else current)
        init).quantity
    ∧ ∀ e ∈ l, e.quantity ≤ (l.foldl
        (fun prev current => if prev.quantity > current.quantity then prev else current)
        init).quantity := by
  induction l generalizing init with
  | nil => simp
  | cons x xs ih =>
    simp only [List.foldl_cons]
    by_cases hx : init.quantity > x.quantity
    · rw [if_pos hx]
      obtain ⟨h1, h2, h3⟩ := ih init
      refine ⟨?_, h2, ?_⟩
      · rcases h1 with h1 | h1
        · exact Or.inl h1
        · exact Or.inr (List.mem_cons_of_mem _ h1)
      · intro e he
        rcases List.mem_cons.1 he with rfl | he
        · omega
        · exact h3 e he
    · rw [if_neg hx]
      obtain ⟨h1, h2, h3⟩ := ih x
      refine ⟨?_, by omega, ?_⟩
      · rcases h1 with h1 | h1
        · exact Or.inr (by rw [h1]; exact List.mem_cons_self _ _)
        · exact Or.inr (List.mem_cons_of_mem _ h1)
      · intro e he
        rcases List.mem_cons.1 he with rfl | he
        · exact h2
        · exact h3 e he

theorem reduce_keeps (l : List StatEntry) (e : StatEntry)
    (h : ∀ x ∈ l, x.quantity < e.quantity) :
    l.foldl (fun prev current => if prev.quantity > current.quantity then prev else current) e
      = e := by
  induction l with
  | nil => rfl
  | cons x xs ih =>
    have hx : e.quantity > x.quantity := h x (List.mem_cons_self _ _)
    simp only [List.foldl_cons, if_pos hx]
    exact ih (fun y hy => h y (List.mem_cons_of_mem _ hy))

theorem reduce_last_max (before after : List StatEntry) (e init : StatEntry)
    (hb : ∀ x ∈ before, x.quantity ≤ e.quantity) (hi : init.quantity ≤ e.quantity)
    (ha : ∀ x ∈ after, x.quantity < e.quantity) :
    (before ++ e :: after).foldl
      (fun prev current => if prev.quantity > current.quantity then prev else current) init
      = e := by
  rw [List.foldl_append, List.foldl_cons]
  obtain ⟨h1, _, _⟩ := reduce_max before init
  have hle : (before.foldl
      (fun prev current => if prev.quantity > current.quantity then prev else current)
      init).quantity ≤ e.quantity := by
    rcases h1 with h1 | h1
    · rw [h1]; exact hi
    · exact hb _ h1
  rw [if_neg (by omega)]
  exact reduce_keeps after e ha

theorem mem_objectValues {α : Type} (obj : List (String × α)) (e : α) :
    e ∈ objectValues obj ↔ ∃ kv ∈ obj, kv.2 = e := by
  unfold objectValues
  simp only [List.mem_append, List.mem_map, List.mem_insertionSort, List.mem_filterMap,
    List.mem_filter, Option.map_eq_some']
  constructor
  · rintro (⟨nv, ⟨kv, hkv, n, _, rfl⟩, rfl⟩ | ⟨kv, ⟨hkv, _⟩, rfl⟩)
    · exact ⟨kv, hkv, rfl⟩
    · exact ⟨kv, hkv, rfl⟩
  · rintro ⟨kv, hkv, rfl⟩
    cases hn : arrayIndex? kv.1 with
    | some n => exact Or.inl ⟨(n, kv.2), ⟨kv, hkv, n, hn, rfl⟩, rfl⟩
    | none => exact Or.inr ⟨kv, ⟨hkv, by simp [hn]⟩, rfl⟩

theorem objectValues_of_no_index {α : Type} (obj : List (String × α))
    (h : ∀ kv ∈ obj, arrayIndex? kv.1 = none) : objectValues obj = obj.map (fun kv => kv.2) := by
  unfold objectValues
  have h1 : obj.filterMap (fun kv => (arrayIndex? kv.1).map (fun n => (n, kv.2))) = [] := by
    rw [List.filterMap_eq_nil_iff]
    intro kv hkv
    simp [h kv hkv]
  have h2 : obj.filter (fun kv => (arrayIndex? kv.1).isNone) = obj := by
    rw [List.filter_eq_self]
    intro kv hkv
    simp [h kv hkv]
  rw [h1, h2]
  simp

theorem accumulatedQuantity_pos (rows : List StatsRow) (k : String)
    (hpos : ∀ r ∈ rows, 0 < r.quantity) (hex : ∃ r ∈ rows, r.product_id = k) :
    0 < accumulatedQuantity rows k := by
  unfold accumulatedQuantity
  apply List.sum_pos
  · intro x hx
    simp only [List.mem_map, List.mem_filter] at hx
    obtain ⟨r, ⟨hr, _⟩, rfl⟩ := hx
    exact hpos r hr
  · obtain ⟨r, hr, hk⟩ := hex
    intro hnil
    have : r.quantity ∈ (rows.filter (fun r => decide (r.product_id = k))).map
        (fun r => r.quantity) :=
      List.mem_map_of_mem _ (List.mem_filter.2 ⟨hr, by simpa using hk⟩)
    rw [hnil] at this
    simp at this

theorem uuidShaped_plain (id : String) (h : uuidShaped id = true) :
    id ≠ "" ∧ id ∉ objectPrototypeKeys ∧ arrayIndex? id = none := by
  simp only [uuidShaped, Bool.and_eq_true, beq_iff_eq] at h
  obtain ⟨⟨⟨⟨hlen, h8⟩, _⟩, _⟩, _⟩ := h
  refine ⟨?_, ?_, ?_⟩
  · intro e
    rw [e] at hlen
    simp at hlen
  · intro hmem
    have hkeys : ∀ k ∈ objectPrototypeKeys, k.data.length ≠ 36 := by decide
    exact hkeys id hmem hlen
  · have hmem : '-' ∈ id.data := List.getElem?_mem h8
    have hall : id.data.all Char.isDigit = false := by
      rw [List.all_eq_false]
      exact ⟨'-', hmem, by decide⟩
    unfold arrayIndex?
    rcases hd : id.data with _ | ⟨c, _ | ⟨d, rest⟩⟩
    · rfl
    · rw [hd] at hlen
      simp at hlen
    · rw [hd] at hall
      simp only [hall]
      split <;> rfl

theorem orderItemsData_uuidShaped (s : Store)
    (h : ∀ p ∈ s.products, uuidShaped p.id = true) :
    ∀ r ∈ orderItemsData s, uuidShaped r.product_id = true := by
  intro r hr
  simp only [orderItemsData, List.mem_flatMap, List.mem_map, List.mem_filter,
    decide_eq_true_eq] at hr
  obtain ⟨oi, _, p, ⟨hp, hpid⟩, rfl⟩ := hr
  show uuidShaped oi.product_id = true
  rw [hpid]
  exact h p hp

theorem accumulatedQuantity_absent (rows : List StatsRow) (k : String)
    (h : ∀ r ∈ rows, r.product_id ≠ k) : accumulatedQuantity rows k = 0 := by
  have : rows.filter (fun r => decide (r.product_id = k)) = [] := by
    simp only [List.filter_eq_nil_iff, decide_eq_true_eq]
    exact h
  simp [accumulatedQuantity, this]

theorem bound_all (rows : List StatsRow)
    (hbound : ∀ r ∈ rows, accumulatedQuantity rows r.product_id ≤ 2 ^ 53) :
    ∀ k, accumulatedQuantity rows k ≤ 2 ^ 53 := by
  intro k
  by_cases h : ∃ r ∈ rows, r.product_id = k
  · obtain ⟨r, hr, rfl⟩ := h
    exact hbound r hr
  · rw [accumulatedQuantity_absent rows k (fun r hr e => h ⟨r, hr, e⟩)]
    norm_num

/-- C4 as stated fails: the statistics query of `largeStore` answers `largeRows`,
whose quantities add up to `2^53 + 1` for product `A` and to `2^53` for product
`B`; the JavaScript sums are both `2^53`, the `reduce` gives the tie to the
later element, and `mostOrderedProduct` is `B`, whose accumulated quantity is
below that of `A`. -/
theorem computeStats_large_sums_not_max :
    orderItemsData largeStore = largeRows
      ∧ (∀ r ∈ largeRows, 0 < r.quantity)
      ∧ (∀ r ∈ largeRows, uuidShaped r.product_id = true)
      ∧ (computeStats largeStore).mostOrderedProduct = some (snapshot rowB5)
      ∧ accumulatedQuantity largeRows idB < accumulatedQuantity largeRows idA := by
  decide

/-- C4, amended: `totalProducts` is the product count whatever the rows are; for
rows with positive quantities whose accumulated quantities are at most `2^53`,
`mostOrderedProduct` is `null` when there are no rows, and otherwise it is the
snapshot (taken from the first row of its id) of a product whose accumulated
quantity is at least that of every product id in the rows; rows
`[(A,3),(B,5),(A,1)]` give `B`.  Product ids are those the code writes. -/
theorem computeStats_most_ordered (count : Nat) (rows : List StatsRow)
    (hpos : ∀ r ∈ rows, 0 < r.quantity)
    (hids : ∀ r ∈ rows, uuidShaped r.product_id = true)
    (hbound : ∀ r ∈ rows, accumulatedQuantity rows r.product_id ≤ 2 ^ 53) :
    (computeStatsRows count rows).totalProducts = count
      ∧ (rows = [] → (computeStatsRows count rows).mostOrderedProduct = none)
      ∧ (rows ≠ [] →
          ∃ r ∈ rows, rows.find? (fun x => x.product_id = r.product_id) = some r
            ∧ (computeStatsRows count rows).mostOrderedProduct = some (snapshot r)
            ∧ ∀ x ∈ rows,
                accumulatedQuantity rows x.product_id ≤ accumulatedQuantity rows r.product_id)
      ∧ (computeStatsRows count [rowA3, rowB5, rowA1]).mostOrderedProduct
          = some (snapshot rowB5) := by
  have inv := productQuantities_inv rows hpos (bound_all rows hbound)
  refine ⟨rfl, ?_, ?_, (by decide : (computeStatsRows 0 [rowA3, rowB5, rowA1]).mostOrderedProduct
    = some (snapshot rowB5))⟩
  · intro hnil
    subst hnil
    rfl
  · intro hne
    obtain ⟨r1, hr1⟩ := List.exists_mem_of_ne_nil rows hne
    obtain ⟨hne1, hnp1, _⟩ := uuidShaped_plain _ (hids r1 hr1)
    obtain ⟨kv1, hkv1, hk1⟩ := inv.complete r1 hr1 hne1 hnp1
    obtain ⟨hres, _, hmax⟩ := reduce_max (objectValues (productQuantities rows))
      { quantity := 0, product := none }
    have hq1 : 0 < kv1.2.quantity := by
      rw [(inv.entry kv1 hkv1).2.2.1, hk1]
      exact accumulatedQuantity_pos rows _ hpos ⟨r1, hr1, rfl⟩
    have hge := hmax kv1.2 ((mem_objectValues _ _).2 ⟨kv1, hkv1, rfl⟩)
    have hposres : 0 < (mostOrderedProductResult
        (objectValues (productQuantities rows))).quantity := lt_of_lt_of_le hq1 hge
    have hin : mostOrderedProductResult (objectValues (productQuantities rows))
        ∈ objectValues (productQuantities rows) := by
      rcases hres with hres | hres
      · exfalso
        unfold mostOrderedProductResult at hposres
        rw [hres] at hposres
        exact lt_irrefl _ hposres
      · exact hres
    obtain ⟨kv, hkv, hkveq⟩ := (mem_objectValues _ _).1 hin
    obtain ⟨_, _, h3, r0, h4, h5⟩ := inv.entry kv hkv
    have hk : r0.product_id = kv.1 := by
      have := List.find?_some h4
      simpa using this
    refine ⟨r0, List.mem_of_find?_eq_some h4, hk ▸ h4, ?_, ?_⟩
    · simp only [computeStatsRows, if_pos hposres]
      rw [← hkveq, h5]
    · intro x hx
      obtain ⟨hxne, hxnp, _⟩ := uuidShaped_plain _ (hids x hx)
      obtain ⟨kvx, hkvx, hkx⟩ := inv.complete x hx hxne hxnp
      have := hmax kvx.2 ((mem_objectValues _ _).2 ⟨kvx, hkvx, rfl⟩)
      rw [(inv.entry kvx hkvx).2.2.1, hkx] at this
      have hres2 : (mostOrderedProductResult (objectValues (productQuantities rows))).quantity
          = accumulatedQuantity rows r0.product_id := by
        rw [← hkveq, h3, hk]
      unfold mostOrderedProductResult at hres2
      rw [hres2] at this
      exact this

theorem computeStats_most_ordered_witness :
    (∀ r ∈ [rowA3, rowB5, rowA1], 0 < r.quantity)
      ∧ (∀ r ∈ [rowA3, rowB5, rowA1], uuidShaped r.product_id = true)
      ∧ (∀ r ∈ [rowA3, rowB5, rowA1],
          accumulatedQuantity [rowA3, rowB5, rowA1] r.product_id ≤ 2 ^ 53)
      ∧ ((computeStatsRows 2 [rowA3, rowB5, rowA1]).totalProducts = 2
        ∧ ([rowA3, rowB5, rowA1] = [] →
            (computeStatsRows 2 [rowA3, rowB5, rowA1]).mostOrderedProduct = none)
        ∧ ([rowA3, rowB5, rowA1] ≠ [] →
            ∃ r ∈ [rowA3, rowB5, rowA1],
              [rowA3, rowB5, rowA1].find? (fun x => x.product_id = r.product_id) = some r
              ∧ (computeStatsRows 2 [rowA3, rowB5, rowA1]).mostOrderedProduct = some (snapshot r)
              ∧ ∀ x ∈ [rowA3, rowB5, rowA1],
                  accumulatedQuantity [rowA3, rowB5, rowA1] x.product_id
                    ≤ accumulatedQuantity [rowA3, rowB5, rowA1] r.product_id)
        ∧ (computeStatsRows 2 [rowA3, rowB5, rowA1]).mostOrderedProduct
            = some (snapshot rowB5)) :=
  ⟨by decide, by decide, by decide,
    computeStats_most_ordered 2 [rowA3, rowB5, rowA1] (by decide) (by decide) (by decide)⟩

/-- C5 as stated fails: on rows `[(A,5),(B,5)]` both ids accumulate 5, `A` is
seen first, and `mostOrderedProduct` is `B`. -/
theorem computeStats_tie_not_first_seen :
    accumulatedQuantity [rowA5, rowB5] idA = accumulatedQuantity [rowA5, rowB5] idB
      ∧ firstSeenAt [rowA5, rowB5] idA < firstSeenAt [rowA5, rowB5] idB
      ∧ (computeStatsRows 2 [rowA5, rowB5]).mostOrderedProduct = some (snapshot rowB5)
      ∧ (computeStatsRows 2 [rowA5, rowB5]).mostOrderedProduct ≠ some (snapshot rowA5) := by
  decide

/-- C5, amended: among the product ids that share the maximum accumulated
quantity, `mostOrderedProduct` is the snapshot of the one seen last in the
accumulation pass (the `reduce` keeps the earlier element only when it is
strictly greater).  Stated for positive quantities whose accumulated quantities
are at most `2^53`, where the JavaScript sums are exact; product ids are those
the code writes. -/
theorem computeStats_tie_last_seen (count : Nat) (rows : List StatsRow)
    (hpos : ∀ r ∈ rows, 0 < r.quantity)
    (hids : ∀ r ∈ rows, uuidShaped r.product_id = true)
    (hbound : ∀ r ∈ rows, accumulatedQuantity rows r.product_id ≤ 2 ^ 53)
    (r : StatsRow) (hr : r ∈ rows)
    (hmax : ∀ x ∈ rows,
      accumulatedQuantity rows x.product_id ≤ accumulatedQuantity rows r.product_id)
    (hlast : ∀ x ∈ rows,
      accumulatedQuantity rows x.product_id = accumulatedQuantity rows r.product_id →
      firstSeenAt rows x.product_id ≤ firstSeenAt rows r.product_id) :
    (computeStatsRows count rows).mostOrderedProduct
      = (rows.find? (fun x => x.product_id = r.product_id)).map snapshot := by
  have inv := productQuantities_inv rows hpos (bound_all rows hbound)
  have hrow : ∀ kv ∈ productQuantities rows, ∃ x ∈ rows, x.product_id = kv.1
      ∧ kv.2.quantity = accumulatedQuantity rows kv.1 := by
    intro kv hkv
    obtain ⟨_, _, h3, r0, h4, _⟩ := inv.entry kv hkv
    refine ⟨r0, List.mem_of_find?_eq_some h4, ?_, h3⟩
    have := List.find?_some h4
    simpa using this
  have hvals : objectValues (productQuantities rows)
      = (productQuantities rows).map (fun kv => kv.2) := by
    apply objectValues_of_no_index
    intro kv hkv
    obtain ⟨x, hx, hxk, _⟩ := hrow kv hkv
    rw [← hxk]
    exact (uuidShaped_plain _ (hids x hx)).2.2
  obtain ⟨hne, hproto, _⟩ := uuidShaped_plain _ (hids r hr)
  obtain ⟨kv, hkv, hk⟩ := inv.complete r hr hne hproto
  obtain ⟨_, _, h3, r0, h4, h5⟩ := inv.entry kv hkv
  obtain ⟨before, after, hsplit⟩ := List.append_of_mem hkv
  have hord := inv.order
  rw [hsplit, List.pairwise_append] at hord
  have hafter := (List.pairwise_cons.1 hord.2.1).1
  have hmemb : ∀ b ∈ before, b ∈ productQuantities rows := by
    intro b hb
    rw [hsplit]
    exact List.mem_append_left _ hb
  have hmema : ∀ b ∈ after, b ∈ productQuantities rows := by
    intro b hb
    rw [hsplit]
    exact List.mem_append_right _ (List.mem_cons_of_mem _ hb)
  have hq : kv.2.quantity = accumulatedQuantity rows r.product_id := by rw [h3, hk]
  have hres : mostOrderedProductResult (objectValues (productQuantities rows)) = kv.2 := by
    unfold mostOrderedProductResult
    rw [hvals, hsplit, List.map_append, List.map_cons]
    apply reduce_last_max
    · intro x hx
      obtain ⟨b, hb, rfl⟩ := List.mem_map.1 hx
      obtain ⟨y, hy, hyk, hbq⟩ := hrow b (hmemb b hb)
      rw [hbq, hq, ← hyk]
      exact hmax y hy
    · rw [hq]
      exact le_of_lt (accumulatedQuantity_pos rows _ hpos ⟨r, hr, rfl⟩)
    · intro x hx
      obtain ⟨b, hb, rfl⟩ := List.mem_map.1 hx
      obtain ⟨y, hy, hyk, hbq⟩ := hrow b (hmema b hb)
      have hle := hmax y hy
      have hlt := hafter b hb
      rw [hbq, hq, ← hyk]
      rcases lt_or_eq_of_le hle with h | h
      · exact h
      · exfalso
        have := hlast y hy h
        rw [hyk, ← hk] at this
        omega
  have hposres : 0 < kv.2.quantity := by
    rw [hq]
    exact accumulatedQuantity_pos rows _ hpos ⟨r, hr, rfl⟩
  simp only [computeStatsRows, hres, if_pos hposres]
  rw [h5, ← hk, h4]
  rfl

theorem computeStats_tie_last_seen_witness :
    (∀ r ∈ [rowA5, rowB5], 0 < r.quantity)
      ∧ (∀ r ∈ [rowA5, rowB5], uuidShaped r.product_id = true)
      ∧ (∀ r ∈ [rowA5, rowB5], accumulatedQuantity [rowA5, rowB5] r.product_id ≤ 2 ^ 53)
      ∧ rowB5 ∈ [rowA5, rowB5]
      ∧ (∀ x ∈ [rowA5, rowB5],
          accumulatedQuantity [rowA5, rowB5] x.product_id
            ≤ accumulatedQuantity [rowA5, rowB5] rowB5.product_id)
      ∧ (∀ x ∈ [rowA5, rowB5],
          accumulatedQuantity [rowA5, rowB5] x.product_id
            = accumulatedQuantity [rowA5, rowB5] rowB5.product_id →
          firstSeenAt [rowA5, rowB5] x.product_id ≤ firstSeenAt [rowA5, rowB5] rowB5.product_id)
      ∧ (computeStatsRows 2 [rowA5, rowB5]).mostOrderedProduct
          = ([rowA5, rowB5].find? (fun x => x.product_id = rowB5.product_id)).map snapshot :=
  ⟨by decide, by decide, by decide, by decide, by decide, by decide,
    computeStats_tie_last_seen 2 [rowA5, rowB5] (by decide) (by decide) (by decide) rowB5
      (by decide) (by decide) (by decide)⟩

end TropiqStore
